import Mathlib

/-!
Shallow embedding of the Payload Resolution Engine of `src/core/payload.ts`
and the payload-validation pass `validatePayload` of `src/core/validator.ts`,
together with proofs settling the specification claims.

Modelling conventions:
* Raw (untyped) JavaScript/YAML data is the inductive `Value`; plain objects
  become insertion-ordered association lists `List (String × Value)`, which is
  how the engine observes them through `Object.entries` (the inputs considered
  here use non-numeric keys, so JS integer-key reordering does not arise).
* Mutable issue accumulators (`issues.push`) become explicit list threading,
  appending at the end.
* The two unbounded `while (true)` / recursive chases of the source are
  written with an explicit fuel argument returning `Option`; `none` signals
  fuel exhaustion.  The public wrappers supply a fuel large enough, and the
  termination theorems below prove that this fuel is never exhausted, which is
  the formal counterpart of the termination guarantee of the source.
-/

namespace OpenTP

/-- Untyped JSON/YAML value as seen by the engine at its dynamic boundary.
Numbers are modelled as integers; no claim involves fractional values. -/
inductive Value where
  | vnull
  | vbool (b : Bool)
  | vnum (n : Int)
  | vstr (s : String)
  | varr (elems : List Value)
  | vobj (entries : List (String × Value))
deriving Repr

open Value

/-- JavaScript truthiness of a value (`null`, `false`, `0`, `""` are falsy;
arrays and objects are always truthy). -/
def truthy : Value → Bool
  | vnull => false
  | vbool b => b
  | vnum n => n != 0
  | vstr s => s != ""
  | varr _ => true
  | vobj _ => true

/-- Truthiness of a possibly-absent value (`undefined` is falsy). -/
def truthyOpt : Option Value → Bool
  | some v => truthy v
  | none => false

/-- JavaScript `!==` between two runtime values, restricted to the data the
engine compares: structural on primitives; distinct object/array literals
compare unequal (reference semantics). -/
def valueNe : Value → Value → Bool
  | vnull, vnull => false
  | vbool a, vbool b => a != b
  | vnum a, vnum b => a != b
  | vstr a, vstr b => a != b
  | _, _ => true

mutual

/-- JavaScript template-literal/`String()` rendering of the values that reach
diagnostic messages. -/
def showV : Value → String
  | vnull => "null"
  | vbool b => cond b ("true") ("false")
  | vnum n => toString n
  | vstr s => s
  | varr xs => String.intercalate (",") (showVList xs)
  | vobj _ => "[object Object]"

/-- Renderings of a list of values, used by `showV` on arrays. -/
def showVList : List Value → List String
  | [] => []
  | x :: xs => showV x :: showVList xs

end

/-- JavaScript `Array.prototype.includes` (SameValueZero) over the primitive
values compared by the validator. -/
def valueIncludes (xs : List Value) (v : Value) : Bool :=
  xs.any (fun x => !(valueNe x v))

/-- Rendering `xs.join(", ")` used by enum diagnostics. -/
def joinComma (xs : List Value) : String :=
  String.intercalate (", ") (xs.map showV)

/-- Assignment `obj[k] = v` on an insertion-ordered object: an existing key
keeps its position, a new key is appended. -/
def objSet (l : List (String × α)) (k : String) (v : α) : List (String × α) :=
  if (l.lookup k).isSome then
    l.map (fun p => if p.1 = k then (p.1, v) else p)
  else
    l ++ [(k, v)]

/-- Object spread `{...a, ...b}`: entries of `b` assigned over `a` in order. -/
def spread2 (a b : List (String × α)) : List (String × α) :=
  b.foldl (fun acc p => objSet acc p.1 p.2) a

/-- Fallback of `a ?? b` restricted to `undefined` (`x ?? y` in the merge code
is applied to optional properties; YAML `null` also falls through). -/
def nullishOr (a b : Option Value) : Option Value :=
  match a with
  | some vnull => b
  | some v => some v
  | none => b

/-- Plain `undefined` fallback used by object spread `{...base, ...override}`:
the override property wins whenever it is present. -/
def optOr (a b : Option α) : Option α :=
  match a with
  | some v => some v
  | none => b

/-- Entries contributed by spreading a value as an object; non-objects
contribute no (relevant) properties. -/
def objEntries : Value → List (String × Value)
  | vobj es => es
  | _ => []

/-- Field schema entry (`Field` of `src/types`), restricted to the properties
the resolution engine and the claims inspect.  Each property is kept as the
raw value found in the event file (`Option` models property presence);
remaining scalar properties merge by the same override-wins spread and are
not needed by any claim. -/
structure Field where
  type : Option Value := none
  enum : Option Value := none
  dict : Option Value := none
  value : Option Value := none
  required : Option Value := none
  valueRequired : Option Value := none
  checks : Option Value := none
  pii : Option Value := none
  xopentp : Option Value := none
deriving Repr

/-- Projection of a raw schema entry to the modelled `Field` properties
(the source casts without runtime validation). -/
def fieldOfValue : Value → Field
  | vobj es =>
    { type := es.lookup ("type")
      enum := es.lookup ("enum")
      dict := es.lookup ("dict")
      value := es.lookup ("value")
      required := es.lookup ("required")
      valueRequired := es.lookup ("valueRequired")
      checks := es.lookup ("checks")
      pii := es.lookup ("pii")
      xopentp := es.lookup ("x-opentp") }
  | _ => {}

/-- Field maps (`Record<string, Field>`), insertion ordered. -/
abbrev Schema := List (String × Field)

/-- Transcription of `mergeField` (payload.ts): override-wins spread, with
`checks`/`pii` merged key-by-key, then the enum/dict/value exclusivity
clearing driven by which selection mechanism the override sets. -/
def mergeField (base override : Field) : Field :=
  let mergedChecks : Option Value :=
    if truthyOpt base.checks || truthyOpt override.checks then
      some (vobj (spread2 (objEntries ((base.checks).getD vnull))
        (objEntries ((override.checks).getD vnull))))
    else none
  let mergedPii : Option Value :=
    if truthyOpt base.pii || truthyOpt override.pii then
      some (vobj (spread2 (objEntries ((base.pii).getD vnull))
        (objEntries ((override.pii).getD vnull))))
    else none
  let merged : Field :=
    { type := optOr override.type base.type
      enum := optOr override.enum base.enum
      dict := optOr override.dict base.dict
      value := optOr override.value base.value
      required := optOr override.required base.required
      valueRequired := optOr override.valueRequired base.valueRequired
      checks := mergedChecks
      pii := mergedPii
      xopentp := optOr override.xopentp base.xopentp }
  if override.value.isSome then
    { merged with enum := none, dict := none }
  else if override.enum.isSome then
    { merged with value := none, dict := none }
  else if override.dict.isSome then
    { merged with value := none, enum := none }
  else
    merged

/-- Transcription of `mergeSchemaMaps` (payload.ts): start from the base map
and assign each override field over it, merging when the name collides. -/
def mergeSchemaMaps (base override : Schema) : Schema :=
  override.foldl
    (fun out p =>
      match out.lookup p.1 with
      | some baseField => objSet out p.1 (mergeField baseField p.2)
      | none => out ++ [p])
    base

/-- Diagnostic issue accumulated by the engine (payload.ts `PayloadIssue`). -/
structure PayloadIssue where
  path : String
  message : String
deriving Repr, DecidableEq

/-- Sentinel version key for unversioned target payloads. -/
def UNVERSIONED_VERSION_KEY : String := "__unversioned__"

/-- One concrete schema snapshot (`PayloadVersion`): the raw `$ref` value is
kept so that the `$ref must be a string` check can observe non-strings. -/
structure PayloadVersion where
  ref : Option Value := none
  meta : Option Value := none
  schema : Schema := []
deriving Repr

/-- Normalized per-selector payload (`NormalizedTargetPayload`). -/
structure NormalizedTargetPayload where
  isUnversioned : Bool
  currentRef : String
  aliases : List (String × String)
  versions : List (String × PayloadVersion)
deriving Repr

/-- Predicate `isPlainObject`. -/
def isPlainObject : Value → Bool
  | vobj _ => true
  | _ => false

/-- Predicate `isPayloadVersion`: a plain object whose `schema` is a plain
object. -/
def isPayloadVersion (v : Value) : Bool :=
  match v with
  | vobj es =>
    match es.lookup ("schema") with
    | some (vobj _) => true
    | _ => false
  | _ => false

/-- Predicate `isVersionedTargetPayload`: a plain object without top-level
`schema` object whose `current` is a string. -/
def isVersionedTargetPayload (v : Value) : Bool :=
  match v with
  | vobj es =>
    match es.lookup ("schema") with
    | some (vobj _) => false
    | _ =>
      match es.lookup ("current") with
      | some (vstr _) => true
      | _ => false
  | _ => false

/-- Typed view of a raw value already known to satisfy `isPayloadVersion`. -/
def toPayloadVersion (v : Value) : PayloadVersion :=
  match v with
  | vobj es =>
    { ref := es.lookup ("$ref")
      meta := es.lookup ("meta")
      schema :=
        match es.lookup ("schema") with
        | some (vobj fs) => fs.map (fun p => (p.1, fieldOfValue p.2))
        | _ => [] }
  | _ => {}

/-- Empty normalized payload substituted for malformed target payloads. -/
def emptyNormalizedPayload : NormalizedTargetPayload :=
  { isUnversioned := true
    currentRef := UNVERSIONED_VERSION_KEY
    aliases := []
    versions := [] }

/-- One step of the version/alias classification loop of `parseTargetPayload`:
a string entry is an alias, a `{schema,...}` object is a version, anything
else (except `current`) is an issue and the entry is dropped. -/
def parseVersionEntry (path : String)
    (acc : List (String × PayloadVersion) × List (String × String) × List PayloadIssue)
    (p : String × Value) :
    List (String × PayloadVersion) × List (String × String) × List PayloadIssue :=
  if p.1 = "current" then acc
  else
    match p.2 with
    | vstr s => (acc.1, objSet acc.2.1 p.1 s, acc.2.2)
    | v =>
      if isPayloadVersion v then
        (objSet acc.1 p.1 (toPayloadVersion v), acc.2.1, acc.2.2)
      else
        (acc.1, acc.2.1,
         acc.2.2 ++ [{ path := path ++ "." ++ p.1
                       message := "Invalid version entry: expected string alias or \x7bschema,...\x7d" }])

/-- Transcription of `parseTargetPayload` (payload.ts): classify a raw target
payload as unversioned, versioned, or invalid, collecting issues and never
failing. -/
def parseTargetPayload (payload : Value) (issues : List PayloadIssue)
    (path : String) : NormalizedTargetPayload × List PayloadIssue :=
  if isPayloadVersion payload then
    ({ isUnversioned := true
       currentRef := UNVERSIONED_VERSION_KEY
       aliases := []
       versions := [(UNVERSIONED_VERSION_KEY, toPayloadVersion payload)] },
     issues)
  else if !(isVersionedTargetPayload payload) then
    (emptyNormalizedPayload,
     issues ++ [{ path := path
                  message := "Invalid target payload: expected \x7bschema,...\x7d or \x7bcurrent,...\x7d" }])
  else
    match payload with
    | vobj es =>
      let st := es.foldl (parseVersionEntry path) ([], [], issues)
      let currentRef :=
        match es.lookup ("current") with
        | some (vstr s) => s
        | _ => ""
      ({ isUnversioned := false
         currentRef := currentRef
         aliases := st.2.1
         versions := st.1 }, st.2.2)
    | _ => (emptyNormalizedPayload, issues)

/-- Transcription of `mergePayloadVersion` (payload.ts). -/
def mergePayloadVersion (base override : PayloadVersion) : PayloadVersion :=
  { ref := nullishOr override.ref base.ref
    meta := nullishOr override.meta base.meta
    schema := mergeSchemaMaps base.schema override.schema }

/-- Transcription of `mergeNormalizedTargetPayload` (payload.ts): four cases
depending on which side is unversioned. -/
def mergeNormalizedTargetPayload (base override : NormalizedTargetPayload) :
    NormalizedTargetPayload :=
  if base.isUnversioned && override.isUnversioned then
    match base.versions.lookup UNVERSIONED_VERSION_KEY,
          override.versions.lookup UNVERSIONED_VERSION_KEY with
    | none, _ => override
    | some _, none => base
    | some baseV, some overrideV =>
      { isUnversioned := true
        currentRef := UNVERSIONED_VERSION_KEY
        aliases := []
        versions := [(UNVERSIONED_VERSION_KEY, mergePayloadVersion baseV overrideV)] }
  else if base.isUnversioned && !override.isUnversioned then
    match base.versions.lookup UNVERSIONED_VERSION_KEY with
    | none => override
    | some overlay =>
      { override with
        versions := override.versions.map
          (fun p => (p.1, { p.2 with schema := mergeSchemaMaps overlay.schema p.2.schema })) }
  else if !base.isUnversioned && override.isUnversioned then
    match override.versions.lookup UNVERSIONED_VERSION_KEY with
    | none => base
    | some overlay =>
      { base with
        versions := base.versions.map
          (fun p => (p.1, { p.2 with schema := mergeSchemaMaps p.2.schema overlay.schema })) }
  else
    { isUnversioned := false
      currentRef := override.currentRef
      aliases := spread2 base.aliases override.aliases
      versions := override.versions.foldl
        (fun acc p =>
          match acc.lookup p.1 with
          | some baseVersion => objSet acc p.1 (mergePayloadVersion baseVersion p.2)
          | none => acc ++ [p])
        base.versions }

/-- Transcription of `isSubset` (payload.ts): every member of `a` is in `b`. -/
def isSubset (a b : List String) : Bool :=
  a.all (fun x => b.contains x)

/-- Fueled transcription of the `while (true)` chase of `resolveAliasOrVersion`
(payload.ts): follow aliases until a version key, an unresolved name, or a
revisited name; `none` means the fuel ran out (shown impossible below). -/
def raovGo (versions : List (String × PayloadVersion))
    (aliases : List (String × String)) (name path : String) :
    Nat → List String → String → List PayloadIssue →
    Option (Option String × List PayloadIssue)
  | 0, _, _, _ => none
  | fuel + 1, visited, cur, issues =>
    if visited.contains cur then
      some (none, issues ++ [{ path := path
                               message := "Alias cycle detected at \x27" ++ cur ++ "\x27" }])
    else
      if (versions.lookup cur).isSome then some (some cur, issues)
      else
        match aliases.lookup cur with
        | some next => raovGo versions aliases name path fuel (cur :: visited) next issues
        | none =>
          some (none,
            issues ++ [{ path := path
                         message := "Reference \x27" ++ name ++ "\x27 does not resolve to a version key" }])

/-- Public `resolveAliasOrVersion`: the chase visits at most one fresh alias
key per step, so `aliases.length + 1` steps always suffice. -/
def resolveAliasOrVersion (name : String)
    (versions : List (String × PayloadVersion))
    (aliases : List (String × String)) (issues : List PayloadIssue)
    (path : String) : Option String × List PayloadIssue :=
  (raovGo versions aliases name path (aliases.length + 1) [] name issues).getD
    (none, issues)

/-- Transcription of `resolveAllAliases` (payload.ts): resolve every alias,
keeping only those that resolve to a truthy key. -/
def resolveAllAliases (versions : List (String × PayloadVersion))
    (aliases : List (String × String)) (issues : List PayloadIssue)
    (basePath : String) : List (String × String) × List PayloadIssue :=
  aliases.foldl
    (fun acc p =>
      let (key, issues) :=
        resolveAliasOrVersion p.2 versions aliases acc.2 (basePath ++ "." ++ p.1)
      match key with
      | some k => if k = "" then (acc.1, issues) else (objSet acc.1 p.1 k, issues)
      | none => (acc.1, issues))
    ([], issues)

/-- Characters of `s` up to and past the first occurrence of `"::"`, if any
(JS `indexOf("::")`). -/
def findSep : List Char → Option (List Char × List Char)
  | [] => none
  | [_] => none
  | c :: c2 :: rest =>
    if c = ':' && c2 = ':' then some ([], rest)
    else
      match findSep (c2 :: rest) with
      | some (pre, post) => some (c :: pre, post)
      | none => none

/-- Transcription of `parseSelectorRef` (payload.ts): split a reference of the
form `selector::name`, defaulting the selector when no separator occurs;
blank halves are invalid. -/
def parseSelectorRef (ref defaultSelector : String) : Option (String × String) :=
  match findSep ref.data with
  | none => some (defaultSelector, ref)
  | some (pre, post) =>
    let selector := (String.mk pre).trim
    let name := (String.mk post).trim
    if selector.length = 0 || name.length = 0 then none
    else some (selector, name)

/-- Identifier `selector::name` used for visited sets, stacks and caches. -/
def scopeId (selector name : String) : String :=
  selector ++ "::" ++ name

/-- All `selector::alias` identifiers of a selector-payload table; bound for
the cross-selector alias chase. -/
def allAliasIds (selPayloads : List (String × NormalizedTargetPayload)) :
    List String :=
  selPayloads.flatMap (fun p => p.2.aliases.map (fun a => scopeId p.1 a.1))

/-- All `selector::version` identifiers of a selector-payload table; bound for
the cross-selector `$ref` recursion. -/
def allVersionIds (selPayloads : List (String × NormalizedTargetPayload)) :
    List String :=
  selPayloads.flatMap (fun p => p.2.versions.map (fun v => scopeId p.1 v.1))

/-- Fueled transcription of `resolveSelectorAliasOrVersion` (payload.ts):
cross-selector alias chase over `selector::name` identifiers. -/
def rsaovGo (selPayloads : List (String × NormalizedTargetPayload))
    (fromPath : String) :
    Nat → List String → String × String → List PayloadIssue →
    Option (Option (String × String) × List PayloadIssue)
  | 0, _, _, _ => none
  | fuel + 1, visited, cur, issues =>
    let id := scopeId cur.1 cur.2
    if visited.contains id then
      some (none, issues ++ [{ path := fromPath
                               message := "Alias cycle detected at \x27" ++ id ++ "\x27" }])
    else
      let visited := id :: visited
      match selPayloads.lookup cur.1 with
      | none =>
        some (none, issues ++ [{ path := fromPath
                                 message := "Unknown target selector \x27" ++ cur.1 ++ "\x27" }])
      | some scope =>
        if (scope.versions.lookup cur.2).isSome then some (some cur, issues)
        else
          match scope.aliases.lookup cur.2 with
          | none =>
            some (none,
              issues ++ [{ path := fromPath
                           message := "Reference \x27" ++ id ++ "\x27 does not resolve to a version key" }])
          | some next =>
            match parseSelectorRef next cur.1 with
            | none =>
              some (none, issues ++ [{ path := fromPath
                                       message := "Invalid reference \x27" ++ next ++ "\x27" }])
            | some parsed => rsaovGo selPayloads fromPath fuel visited parsed issues

/-- Public `resolveSelectorAliasOrVersion`; each step consumes a fresh
`selector::alias` identifier, so the total alias count bounds the chase. -/
def resolveSelectorAliasOrVersion
    (selPayloads : List (String × NormalizedTargetPayload))
    (selector name fromPath : String) (issues : List PayloadIssue) :
    Option (String × String) × List PayloadIssue :=
  (rsaovGo selPayloads fromPath ((allAliasIds selPayloads).length + 1) []
      (selector, name) issues).getD (none, issues)

/-- Mutable state shared across the whole `resolveEventPayload` call: the
issue accumulator and the cross-selector schema cache
(`selectorSchemaCache`). -/
structure EngineSt where
  issues : List PayloadIssue
  extCache : List (String × Schema)
deriving Repr

/-- Fueled transcription of `resolveSelectorSchema` (payload.ts): memoized
cross-selector `$ref` resolution over `selector::version` identifiers, with
cycle detection via the explicit stack. -/
def rssGo (selPayloads : List (String × NormalizedTargetPayload)) :
    Nat → String → String → List String → EngineSt →
    Option (Schema × EngineSt)
  | 0, _, _, _, _ => none
  | fuel + 1, selector, versionKey, stack, st =>
    let cacheKey := scopeId selector versionKey
    match st.extCache.lookup cacheKey with
    | some s => some (s, st)
    | none =>
      let refPath := "payload." ++ selector ++ "." ++ versionKey ++ ".$ref"
      if stack.contains cacheKey then
        let fallback :=
          match selPayloads.lookup selector with
          | some scope => ((scope.versions.lookup versionKey).map PayloadVersion.schema).getD []
          | none => []
        some (fallback,
          { issues := st.issues ++
              [{ path := refPath
                 message := "Cycle detected in $ref: " ++ String.intercalate (" -> ") stack }]
            extCache := objSet st.extCache cacheKey fallback })
      else
        match selPayloads.lookup selector with
        | none => some ([], { st with extCache := objSet st.extCache cacheKey [] })
        | some scope =>
          match scope.versions.lookup versionKey with
          | none => some ([], { st with extCache := objSet st.extCache cacheKey [] })
          | some version =>
            let stack := stack ++ [cacheKey]
            let step : Option (Schema × EngineSt) :=
              match version.ref with
              | none => some (version.schema, st)
              | some (vstr r) =>
                if r = "" then
                  some (version.schema,
                    { st with issues := st.issues ++ [{ path := refPath, message := "$ref must be a string" }] })
                else
                  match parseSelectorRef r selector with
                  | none =>
                    some (version.schema,
                      { st with issues := st.issues ++
                          [{ path := refPath
                             message := "Invalid $ref \x27" ++ r ++ "\x27. Expected \x27<target>::<versionOrAlias>\x27 or \x27<versionOrAlias>\x27" }] })
                  | some parsed =>
                    match resolveSelectorAliasOrVersion selPayloads parsed.1 parsed.2 refPath st.issues with
                    | (none, issues) => some (version.schema, { st with issues })
                    | (some resolved, issues) =>
                      let st := { st with issues }
                      if scopeId resolved.1 resolved.2 = cacheKey then
                        some (version.schema, st)
                      else
                        (rssGo selPayloads fuel resolved.1 resolved.2 stack st).map
                          (fun q => (mergeSchemaMaps q.1 version.schema, q.2))
              | some _ =>
                some (version.schema,
                  { st with issues := st.issues ++ [{ path := refPath, message := "$ref must be a string" }] })
            step.map
              (fun q => (q.1, { q.2 with extCache := objSet q.2.extCache cacheKey q.1 }))

/-- Public `resolveSelectorSchema`; every recursion step pushes a fresh
`selector::version` identifier onto the stack, so the total version count
bounds the depth. -/
def resolveSelectorSchema (selPayloads : List (String × NormalizedTargetPayload))
    (selector versionKey : String) (stack : List String) (st : EngineSt) :
    Schema × EngineSt :=
  (rssGo selPayloads ((allVersionIds selPayloads).length + 1) selector versionKey
      stack st).getD ([], st)

/-- Transcription of the `resolveExternalSchema` closure (payload.ts) handed
to `resolveRefSchema` for `<selector>::<versionOrAlias>` references. -/
def resolveExternalSchema (selPayloads : List (String × NormalizedTargetPayload))
    (r fromPath : String) (st : EngineSt) : Option Schema × EngineSt :=
  match parseSelectorRef r "" with
  | none =>
    (none,
     { st with issues := st.issues ++
         [{ path := fromPath
            message := "Invalid $ref \x27" ++ r ++ "\x27. Expected \x27<target>::<versionOrAlias>\x27" }] })
  | some parsed =>
    match resolveSelectorAliasOrVersion selPayloads parsed.1 parsed.2 fromPath st.issues with
    | (none, issues) => (none, { st with issues })
    | (some resolved, issues) =>
      let (schema, st) := resolveSelectorSchema selPayloads resolved.1 resolved.2 [] { st with issues }
      (some schema, st)

/-- Same-scope `$ref` key computation of `resolveRefSchema` (payload.ts): a
raw version key is taken as is, a previously resolved alias is reused when
truthy, and otherwise the full alias chase runs. -/
def sameScopeRefKey (versions : List (String × PayloadVersion))
    (resolvedAliases : List (String × String)) (r refPath : String)
    (issues : List PayloadIssue) : Option String × List PayloadIssue :=
  if (versions.lookup r).isSome then (some r, issues)
  else
    match resolvedAliases.lookup r with
    | some s =>
      if s ≠ "" then (some s, issues)
      else resolveAliasOrVersion r versions resolvedAliases issues refPath
    | none => resolveAliasOrVersion r versions resolvedAliases issues refPath

/-- Fueled transcription of `resolveRefSchema` (payload.ts): per-target `$ref`
resolution with memoization `cache`, cycle stack, and the external-resolver
hook (always supplied by `resolveEventPayload`, hence inlined). -/
def rrsGo (selPayloads : List (String × NormalizedTargetPayload))
    (versions : List (String × PayloadVersion))
    (resolvedAliases : List (String × String)) (basePath : String) :
    Nat → String → List String → List (String × Schema) → EngineSt →
    Option (Schema × List (String × Schema) × EngineSt)
  | 0, _, _, _, _ => none
  | fuel + 1, versionKey, stack, cache, st =>
    match cache.lookup versionKey with
    | some s => some (s, cache, st)
    | none =>
      if stack.contains versionKey then
        some (((versions.lookup versionKey).map PayloadVersion.schema).getD [],
          cache,
          { st with issues := st.issues ++
              [{ path := basePath ++ "." ++ versionKey ++ ".$ref"
                 message := "Cycle detected in $ref: " ++ String.intercalate (" -> ") stack }] })
      else
        match versions.lookup versionKey with
        | none => some ([], cache, st)
        | some version =>
          let stack := stack ++ [versionKey]
          let refPath := basePath ++ "." ++ versionKey ++ ".$ref"
          let step : Option (Schema × List (String × Schema) × EngineSt) :=
            match version.ref with
            | none => some (version.schema, cache, st)
            | some (vstr r) =>
              if r = "" then
                some (version.schema, cache,
                  { st with issues := st.issues ++ [{ path := refPath, message := "$ref must be a string" }] })
              else if (findSep r.data).isSome then
                match resolveExternalSchema selPayloads r refPath st with
                | (some externalSchema, st) =>
                  some (mergeSchemaMaps externalSchema version.schema, cache, st)
                | (none, st) => some (version.schema, cache, st)
              else
                match sameScopeRefKey versions resolvedAliases r refPath st.issues with
                | (some refKey, issues) =>
                  let st := { st with issues }
                  if refKey ≠ "" && refKey ≠ versionKey then
                    (rrsGo selPayloads versions resolvedAliases basePath fuel refKey stack cache st).map
                      (fun t => (mergeSchemaMaps t.1 version.schema, t.2.1, t.2.2))
                  else if refKey = "" then
                    some (version.schema, cache,
                      { st with issues := st.issues ++
                          [{ path := refPath
                             message := "Unknown $ref target \x27" ++ r ++ "\x27" }] })
                  else
                    some (version.schema, cache, st)
                | (none, issues) =>
                  some (version.schema, cache,
                    { st with issues := issues ++
                        [{ path := refPath
                           message := "Unknown $ref target \x27" ++ r ++ "\x27" }] })
            | some _ =>
              some (version.schema, cache,
                { st with issues := st.issues ++ [{ path := refPath, message := "$ref must be a string" }] })
          step.map (fun t => (t.1, objSet t.2.1 versionKey t.1, t.2.2))

/-- Public `resolveRefSchema`; each recursion step pushes a fresh version key,
so `versions.length + 1` steps always suffice. -/
def resolveRefSchema (selPayloads : List (String × NormalizedTargetPayload))
    (versions : List (String × PayloadVersion))
    (resolvedAliases : List (String × String)) (basePath versionKey : String)
    (stack : List String) (cache : List (String × Schema)) (st : EngineSt) :
    Schema × List (String × Schema) × EngineSt :=
  (rrsGo selPayloads versions resolvedAliases basePath (versions.length + 1)
      versionKey stack cache st).getD ([], cache, st)

/-- Resolved version: fully `$ref`-merged schema plus original metadata. -/
structure ResolvedPayloadVersion where
  key : String
  ref : Option Value := none
  meta : Option Value := none
  schema : Schema := []
deriving Repr

/-- Resolved payload of one concrete target. -/
structure ResolvedTargetPayload where
  target : String
  current : String
  aliases : List (String × String)
  versions : List (String × ResolvedPayloadVersion)
deriving Repr

/-- Resolved payload of a whole event, keyed by concrete target. -/
structure ResolvedEventPayload where
  targets : List (String × ResolvedTargetPayload)
deriving Repr

/-- Selector record built by the mapper stage of `resolveEventPayload`. -/
structure SelectorInfo where
  name : String
  index : Nat
  targets : List String
  payload : NormalizedTargetPayload
deriving Repr

/-- Deduplication keeping first occurrences (`new Set(xs)`); only membership
and cardinality of the resulting target set are ever observed. -/
def dedupKeepFirst (l : List String) : List String :=
  (l.foldl
    (fun (acc : List String × List String) x =>
      if acc.2.contains x then acc else (acc.1 ++ [x], x :: acc.2))
    ([], [])).1

/-- Ordered pairs `(i, j)` with `i < j` of a list, in the nested-loop order of
the ambiguity check. -/
def allPairs : List α → List (α × α)
  | [] => []
  | x :: xs => xs.map (fun y => (x, y)) ++ allPairs xs

/-- Ambiguity issues for one concrete target: one per pair of applicable
selectors whose target sets are not related by inclusion. -/
def ambiguityIssues (target : String) (applicable : List SelectorInfo) :
    List PayloadIssue :=
  (allPairs applicable).foldl
    (fun acc pr =>
      if !(isSubset pr.1.targets pr.2.targets || isSubset pr.2.targets pr.1.targets) then
        acc ++ [{ path := "payload." ++ target
                  message := "Ambiguous selectors for \x27" ++ target ++ "\x27: \x27" ++ pr.1.name ++
                    "\x27 and \x27" ++ pr.2.name ++ "\x27 overlap without subset relation" }]
      else acc)
    []

/-- Sort order of the applicable-selector sort: broader target set first,
declaration order on ties (the comparator of payload.ts; indices are unique,
so this is a strict total order and the JS sort result is determined). -/
def selLe (a b : SelectorInfo) : Bool :=
  decide (b.targets.length < a.targets.length) ||
    (decide (a.targets.length = b.targets.length) && decide (a.index ≤ b.index))

/-- Insertion into a sorted list. -/
def insertBy (le : α → α → Bool) (x : α) : List α → List α
  | [] => [x]
  | y :: ys => if le x y then x :: y :: ys else y :: insertBy le x ys

/-- Insertion sort; with the strict total `selLe` this computes the unique
sorted order produced by the source's comparator-based sort. -/
def sortBy (le : α → α → Bool) : List α → List α
  | [] => []
  | x :: xs => insertBy le x (sortBy le xs)

/-- Selector-map construction of `resolveEventPayload`: a bare (un)versioned
payload means selector `all`; a plain object is taken entry-wise; anything
else is an issue. -/
def buildSelectorMap (payload : Value) (issues : List PayloadIssue) :
    List (String × Value) × List PayloadIssue :=
  if isPayloadVersion payload || isVersionedTargetPayload payload then
    ([("all", payload)], issues)
  else
    match payload with
    | vobj es => (es, issues)
    | _ => ([], issues ++ [{ path := "payload", message := "Invalid payload: expected object" }])

/-- Selector-parsing loop of `resolveEventPayload`: normalize every selector
payload, map selector names to concrete target sets, and report unknown
selectors. -/
def parseSelectors (targetsConfig : List (String × List String))
    (allTargets : List String) (selectorMap : List (String × Value))
    (issues : List PayloadIssue) :
    List SelectorInfo × List (String × NormalizedTargetPayload) × List PayloadIssue :=
  let st := selectorMap.foldl
    (fun (acc : List SelectorInfo × List (String × NormalizedTargetPayload) ×
        List PayloadIssue × Nat) p =>
      let (sels, selPayloads, issues, idx) := acc
      let (parsed, issues) := parseTargetPayload p.2 issues ("payload." ++ p.1)
      let selPayloads := objSet selPayloads p.1 parsed
      match targetsConfig.lookup p.1 with
      | some groupTargets =>
        (sels ++ [{ name := p.1, index := idx, targets := dedupKeepFirst groupTargets,
                    payload := parsed }], selPayloads, issues, idx + 1)
      | none =>
        if allTargets.contains p.1 then
          (sels ++ [{ name := p.1, index := idx, targets := dedupKeepFirst [p.1],
                      payload := parsed }], selPayloads, issues, idx + 1)
        else
          (sels, selPayloads,
           issues ++ [{ path := "payload." ++ p.1
                        message := "Unknown target selector \x27" ++ p.1 ++
                          "\x27. Define it in spec.events.payload.targets or include it in targets.all." }],
           idx + 1))
    ([], [], issues, 0)
  (st.1, st.2.1, st.2.2.1)

/-- Selectors applicable to one concrete target. -/
def applicableFor (selectors : List SelectorInfo) (target : String) : List SelectorInfo :=
  selectors.filter (fun s => s.targets.contains target)

/-- Broad-to-narrow merge of the applicable selector payloads for a target. -/
def mergedFor (selectors : List SelectorInfo) (target : String) : NormalizedTargetPayload :=
  match sortBy selLe (applicableFor selectors target) with
  | [] => emptyNormalizedPayload
  | s0 :: srest =>
    srest.foldl (fun m (s : SelectorInfo) => mergeNormalizedTargetPayload m s.payload) s0.payload

/-- Alias table and `current` resolution for one target's merged payload:
the resolved alias map, the resolved current key, and the updated issues. -/
def resolveCurrentFor (merged : NormalizedTargetPayload) (target : String)
    (issues : List PayloadIssue) :
    List (String × String) × Option String × List PayloadIssue :=
  let ra := resolveAllAliases merged.versions merged.aliases issues
    ("payload." ++ target ++ ".aliases")
  let ck := resolveAliasOrVersion merged.currentRef merged.versions
    (spread2 merged.aliases ra.1) ra.2 ("payload." ++ target ++ ".current")
  (ra.1, ck.1, ck.2)

/-- `$ref` resolution of every version of one target (shared per-target memo
cache threaded through the fold). -/
def resolveVersionsFold (selPayloads : List (String × NormalizedTargetPayload))
    (versions : List (String × PayloadVersion))
    (resolvedAliases : List (String × String)) (basePath : String)
    (acc : List (String × ResolvedPayloadVersion) × List (String × Schema) × EngineSt)
    (entries : List (String × PayloadVersion)) :
    List (String × ResolvedPayloadVersion) × List (String × Schema) × EngineSt :=
  entries.foldl
    (fun inner p =>
      let r := resolveRefSchema selPayloads versions resolvedAliases basePath p.1 []
        inner.2.1 inner.2.2
      (objSet inner.1 p.1 { key := p.1, ref := p.2.ref, meta := p.2.meta, schema := r.1 },
       r.2.1, r.2.2))
    acc

/-- Per-target body of the main loop of `resolveEventPayload`: ambiguity
check, broad-to-narrow merge, alias and `current` resolution, then `$ref`
resolution of every version (fresh per-target memo cache). -/
def processTarget (selectors : List SelectorInfo)
    (selPayloads : List (String × NormalizedTargetPayload))
    (acc : List (String × ResolvedTargetPayload) × EngineSt) (target : String) :
    List (String × ResolvedTargetPayload) × EngineSt :=
  let applicable := applicableFor selectors target
  if applicable.isEmpty then acc
  else
    let st : EngineSt := { acc.2 with issues := acc.2.issues ++ ambiguityIssues target applicable }
    let merged := mergedFor selectors target
    let rc := resolveCurrentFor merged target st.issues
    let st : EngineSt := { st with issues := rc.2.2 }
    match rc.2.1 with
    | none => (acc.1, st)
    | some ck =>
      if ck = "" then (acc.1, st)
      else
        let res := resolveVersionsFold selPayloads merged.versions rc.1
          ("payload." ++ target) ([], [], st) merged.versions
        (objSet acc.1 target
          { target := target, current := ck, aliases := rc.1, versions := res.1 },
         res.2.2)

/-- Transcription of `resolveEventPayload` (payload.ts): the entry point of
the Payload Resolution Engine.  The spec's target-group table is the typed
map `targetsConfig` (structural validation of the configuration is owned by
the excluded configuration loader). -/
def resolveEventPayload (payload : Value)
    (targetsConfig : List (String × List String)) :
    ResolvedEventPayload × List PayloadIssue :=
  let allTargets := (targetsConfig.lookup ("all")).getD []
  let issues : List PayloadIssue :=
    if allTargets.isEmpty then
      [{ path := "spec.events.payload.targets.all", message := "Missing or empty targets.all" }]
    else []
  let (selectorMap, issues) := buildSelectorMap payload issues
  let issues :=
    if isPlainObject payload && selectorMap.isEmpty then
      issues ++ [{ path := "payload"
                   message := "Payload is empty: expected \x27schema\x27 or target selectors" }]
    else issues
  let (selectors, selPayloads, issues) :=
    parseSelectors targetsConfig allTargets selectorMap issues
  let res := allTargets.foldl (processTarget selectors selPayloads)
    ([], { issues := issues, extCache := [] })
  ({ targets := res.1 }, res.2.issues)

/-- Validation error of `validatePayload` (validator), restricted to path and
message; the `event` field and the constant `"error"` severity carry no
information for the claims. -/
structure ValidationError where
  path : String
  message : String
deriving Repr, DecidableEq

/-- Field definition handed to the exclusivity rule (`FieldDefinition`). -/
structure FieldDefinition where
  enum : Option Value := none
  dict : Option Value := none
  value : Option Value := none
deriving Repr

/-- Transcription of `validateFieldExclusivity` (rules/validation.ts),
returning the error message when the rule fails. -/
def validateFieldExclusivity (field : FieldDefinition)
    (specField : Option FieldDefinition) : Option String :=
  let hasEnum := match field.enum with | some (varr _) => true | _ => false
  let hasDict := field.dict.isSome
  let hasValue := field.value.isSome
  let count := (cond hasEnum 1 0) + (cond hasDict 1 0) + (cond hasValue 1 0)
  if count > 1 then some ("Field can have only one of: enum, dict, or value")
  else
    match specField with
    | none => none
    | some sf =>
      let valueErr : Option String :=
        match field.value, sf.enum with
        | some v, some (varr xs) =>
          if hasValue && !(valueIncludes xs v) then
            some ("Value \"" ++ showV v ++ "\" is not in allowed enum: [" ++ joinComma xs ++ "]")
          else none
        | _, _ => none
      match valueErr with
      | some e => some e
      | none =>
        match field.enum, sf.enum with
        | some (varr ys), some (varr xs) =>
          let invalidValues := ys.filter (fun v => !(valueIncludes xs v))
          if !invalidValues.isEmpty then
            some ("Enum values [" ++ joinComma invalidValues ++ "] are not in spec enum: [" ++
              joinComma xs ++ "]")
          else none
        | _, _ => none

/-- Test `x === true` on an optional raw value. -/
def isTrueV : Option Value → Bool
  | some (vbool true) => true
  | _ => false

/-- Test `x === false` on an optional raw value. -/
def isFalseV : Option Value → Bool
  | some (vbool false) => true
  | _ => false

/-- Condition of the base-versus-override type conflict: both truthy and
`!==`. -/
def typeConflict (a b : Option Value) : Bool :=
  match a, b with
  | some x, some y => truthy x && truthy y && valueNe x y
  | _, _ => false

/-- JavaScript `typeof x` is string, number or boolean. -/
def isPrimitive : Value → Bool
  | vstr _ => true
  | vnum _ => true
  | vbool _ => true
  | _ => false

/-- Lookup of `getDictValues` (core/dict.ts): dictionary names are strings. -/
def getDict (dicts : List (String × List Value)) : Value → Option (List Value)
  | vstr d => dicts.lookup d
  | _ => none

/-- Skip condition of the per-field validation loops (ignore set). -/
def fieldIgnored (ignore : List String) (targetId fieldName fp : String) : Bool :=
  ignore.contains fp ||
    ignore.contains ("payload." ++ targetId ++ ".schema." ++ fieldName) ||
    ignore.contains ("payload.schema." ++ fieldName) ||
    ignore.contains ("payload::" ++ fieldName)

/-- Base-layer conflict diagnostics of `validatePayload` for one event field
against the merged spec base (type conflict, required/valueRequired
weakening, and the valueRequired/required contradiction checks). -/
def conflictErrors (baseField fieldValue : Field) (fp : String) :
    List ValidationError :=
  let e1 : List ValidationError :=
    match baseField.type, fieldValue.type with
    | some x, some y =>
      if truthy x && truthy y && valueNe x y then
        [{ path := fp
           message := "Field type conflict: base \x27" ++ showV x ++ "\x27 vs override \x27" ++
             showV y ++ "\x27" }]
      else []
    | _, _ => []
  let e2 : List ValidationError :=
    if isTrueV baseField.required && isFalseV fieldValue.required then
      [{ path := fp
         message := "Cannot weaken required field (base required=true, override required=false)" }]
    else []
  let e3 : List ValidationError :=
    if isTrueV baseField.valueRequired && isFalseV fieldValue.valueRequired then
      [{ path := fp
         message := "Cannot weaken valueRequired field (base valueRequired=true, override valueRequired=false)" }]
    else []
  let e4 : List ValidationError :=
    if isTrueV baseField.valueRequired && isFalseV fieldValue.required then
      [{ path := fp
         message := "Cannot set required=false when base valueRequired=true (valueRequired implies required=true)" }]
    else []
  let e5 : List ValidationError :=
    if isTrueV fieldValue.valueRequired && isFalseV fieldValue.required then
      [{ path := fp
         message := "Invalid field: valueRequired=true implies required=true (required=false is not allowed)" }]
    else []
  e1 ++ e2 ++ e3 ++ e4 ++ e5


/-- Exclusivity and base-dictionary errors of one event-declared field (the
second per-field loop of `validatePayload`). -/
def eventFieldErrors (dicts : List (String × List Value)) (ignore : List String)
    (baseForTarget : Schema) (targetId prefixPath fieldName : String)
    (fieldValue : Field) : List ValidationError :=
  let fp := prefixPath ++ "." ++ fieldName
  if fieldIgnored ignore targetId fieldName fp then []
  else
    let specFieldConfig := baseForTarget.lookup fieldName
    let specDef := specFieldConfig.map
      (fun f => ({ enum := f.enum, dict := f.dict } : FieldDefinition))
    let eventDef : FieldDefinition :=
      { enum := fieldValue.enum, dict := fieldValue.dict, value := fieldValue.value }
    let e1 : List ValidationError :=
      match validateFieldExclusivity eventDef specDef with
      | some msg => [{ path := fp, message := msg }]
      | none => []
    let e2 : List ValidationError :=
      match specFieldConfig with
      | none => []
      | some sfc =>
        match sfc.dict with
        | none => []
        | some dv =>
          if truthy dv then
            match getDict dicts dv with
            | none => [{ path := fp, message := "Unknown dictionary \x27" ++ showV dv ++ "\x27" }]
            | some allowed =>
              let ev : List ValidationError :=
                match fieldValue.value with
                | some v =>
                  if !(valueIncludes allowed v) then
                    [{ path := fp ++ ".value"
                       message := "Value \x27" ++ showV v ++ "\x27 is not in dictionary \x27" ++
                         showV dv ++ "\x27" }]
                  else []
                | none => []
              let ee : List ValidationError :=
                match fieldValue.enum with
                | some (varr ys) =>
                  let invalid := ys.filter (fun v => !(valueIncludes allowed v))
                  if !invalid.isEmpty then
                    [{ path := fp ++ ".enum"
                       message := "Enum values [" ++ joinComma invalid ++
                         "] are not in dictionary \x27" ++ showV dv ++ "\x27" }]
                  else []
                | _ => []
              ev ++ ee
          else []
    e1 ++ e2

/-- Structural errors of one field of the effective (merged) schema (the
third per-field loop of `validatePayload`).  The external value checker, rule
engine and PII validator are parameters. -/
def effectiveFieldErrors (dicts : List (String × List Value)) (ignore : List String)
    (valueChecker : Field → Value → String → List ValidationError)
    (rulesChecker : Value → String → Value → List String)
    (piiChecker : String → String → Value → List ValidationError)
    (targetId prefixPath fieldName : String) (f : Field) : List ValidationError :=
  let fp := prefixPath ++ "." ++ fieldName
  if fieldIgnored ignore targetId fieldName fp then []
  else
    let e1 : List ValidationError :=
      if isTrueV f.valueRequired then
        (if isFalseV f.required then
          [{ path := fp
             message := "Invalid field: valueRequired=true implies required=true (required=false is not allowed)" }]
         else []) ++
        (if f.value.isNone then
          [{ path := fp ++ ".value"
             message := "Missing required fixed value: valueRequired=true requires a fixed \x27value\x27" }]
         else [])
      else []
    let e2 : List ValidationError :=
      match f.dict with
      | some dv =>
        if truthy dv then
          match getDict dicts dv with
          | none => [{ path := fp, message := "Unknown dictionary \x27" ++ showV dv ++ "\x27" }]
          | some _ => []
        else []
      | none => []
    let e3 : List ValidationError :=
      match f.enum with
      | some (varr xs) =>
        xs.enum.flatMap (fun iv => valueChecker f iv.2 (fp ++ ".enum[" ++ toString iv.1 ++ "]"))
      | _ => []
    let e4 : List ValidationError :=
      match f.value with
      | some v => valueChecker f v (fp ++ ".value")
      | none => []
    let e5 : List ValidationError :=
      match f.xopentp with
      | some (vobj es) =>
        match es.lookup ("checks") with
        | some checksV =>
          if truthy checksV then
            match f.value with
            | some v =>
              if isPrimitive v then
                (rulesChecker checksV fieldName v).map
                  (fun m => ({ path := fp ++ ".value", message := m } : ValidationError))
              else []
            | none => []
          else []
        | none => []
      | _ => []
    let e6 : List ValidationError :=
      match f.pii with
      | some pv =>
        if truthy pv && (match pv with | vobj _ => true | varr _ => true | _ => false) then
          piiChecker fieldName fp pv
        else []
      | none => []
    e1 ++ e2 ++ e3 ++ e4 ++ e5 ++ e6

/-- Errors of `validatePayload` for one resolved version of one target:
conflict diagnostics against the merged spec base, then exclusivity and
dictionary checks of event-declared fields, then the effective-schema
checks. -/
def versionErrors (dicts : List (String × List Value)) (ignore : List String)
    (valueChecker : Field → Value → String → List ValidationError)
    (rulesChecker : Value → String → Value → List String)
    (piiChecker : String → String → Value → List ValidationError)
    (baseForTarget : Schema) (targetId versionKey : String)
    (eventSchema : Schema) : List ValidationError :=
  let prefixPath :=
    if versionKey = UNVERSIONED_VERSION_KEY then "payload." ++ targetId ++ ".schema"
    else "payload." ++ targetId ++ "." ++ versionKey ++ ".schema"
  let conflicts := eventSchema.flatMap
    (fun fd =>
      match baseForTarget.lookup fd.1 with
      | none => []
      | some baseField => conflictErrors baseField fd.2 (prefixPath ++ "." ++ fd.1))
  let effectiveSchema := mergeSchemaMaps baseForTarget eventSchema
  let eventChecks := eventSchema.flatMap
    (fun fd => eventFieldErrors dicts ignore baseForTarget targetId prefixPath fd.1 fd.2)
  let effectiveChecks := effectiveSchema.flatMap
    (fun fd =>
      effectiveFieldErrors dicts ignore valueChecker rulesChecker piiChecker
        targetId prefixPath fd.1 fd.2)
  conflicts ++ eventChecks ++ effectiveChecks

/-- Transcription of the payload-validation pass `validatePayload`
(validator): resolution issues of the engine followed by the per-target,
per-version schema checks.  The per-field value/constraint checker
(`validateEffectiveValue`), the pluggable rule engine (`validateWithRules`)
and the PII validator (`validatePii`) belong to the excluded field-level rule
engine and are taken as parameters; each of them only appends errors computed
from its displayed arguments. -/
def validatePayload (baseSchema : Schema) (specTargets : List (String × Schema))
    (targetsConfig : List (String × List String)) (rawPayload : Value)
    (ignore : List String) (dicts : List (String × List Value))
    (valueChecker : Field → Value → String → List ValidationError)
    (rulesChecker : Value → String → Value → List String)
    (piiChecker : String → String → Value → List ValidationError) :
    List ValidationError :=
  let (resolvedPayload, issues) := resolveEventPayload rawPayload targetsConfig
  let errors := issues.map (fun i => ({ path := i.path, message := i.message } : ValidationError))
  errors ++ resolvedPayload.targets.flatMap
    (fun tp =>
      let targetBase := (specTargets.lookup tp.1).getD []
      let baseForTarget := mergeSchemaMaps baseSchema targetBase
      tp.2.versions.flatMap
        (fun vp =>
          versionErrors dicts ignore valueChecker rulesChecker piiChecker
            baseForTarget tp.1 vp.1 vp.2.schema))

/-- Number of keys not yet visited: the decreasing measure of every chase in
the engine (each step of a chase consumes one fresh key). -/
def countNew (keys visited : List String) : Nat :=
  (keys.filter (fun k => !(visited.contains k))).length

/-- Name `a`, `aa`, `aaa`, … of the i-th alias in the canonical alias cycle. -/
def aname (i : Nat) : String := String.mk (List.replicate (i + 1) 'a')

/-- Name `v`, `vv`, `vvv`, … of the i-th version in the canonical `$ref`
cycle. -/
def vname (i : Nat) : String := String.mk (List.replicate (i + 1) 'f')

/-- Canonical alias cycle of length `n`: each name aliases the next, the last
aliases the first. -/
def cycleAliases (n : Nat) : List (String × String) :=
  (List.range n).map (fun i => (aname i, aname ((i + 1) % n)))

/-- Distinct own schema of the i-th version in the canonical `$ref` cycle. -/
def ownSchema (i : Nat) : Schema :=
  [(String.mk (List.replicate (i + 1) 's'), {})]

/-- Canonical `$ref` cycle of length `n`: each version `$ref`s the next, the
last `$ref`s the first. -/
def cycleVersions (n : Nat) : List (String × PayloadVersion) :=
  (List.range n).map
    (fun i => (vname i, { ref := some (vstr (vname ((i + 1) % n))), schema := ownSchema i }))

/-- Schema obtained for version `j` of the canonical `$ref` cycle of length
`n`: the chain of base-into-override merges ending at the unmerged own schema
of version 0 substituted at the point where the cycle is detected. -/
def cycSchema (n j : Nat) : Schema :=
  if j + 1 < n then mergeSchemaMaps (cycSchema n (j + 1)) (ownSchema j)
  else mergeSchemaMaps (ownSchema 0) (ownSchema j)
termination_by n - j

/-- Issue reported for the canonical `$ref` cycle of length `n` started at
version 0: the path names version 0 and the message joins the in-progress
stack. -/
def cycleIssue (n : Nat) (basePath : String) : PayloadIssue :=
  { path := basePath ++ "." ++ vname 0 ++ ".$ref"
    message := "Cycle detected in $ref: " ++
      String.intercalate (" -> ") ((List.range n).map vname) }

/-- Target-group table of the end-to-end scenario (claim C5). -/
def cfgC5 : List (String × List String) := [("all", ["web", "ios"]), ("mobile", ["ios"])]

/-- Event payload of the end-to-end scenario (claim C5). -/
def payloadC5 : Value :=
  vobj [("mobile", vobj [("schema", vobj [("user_id", vobj [("required", vbool true)])])]),
        ("web", vobj [("schema", vobj [("session_id", vobj [("required", vbool true)])])])]

/-- Target-group table with two distinct selectors covering target `ios`
(claim C1). -/
def cfgC1 : List (String × List String) := [("all", ["ios"]), ("mobile", ["ios"])]

/-- Event payload in which selectors `mobile` and `ios` both claim target
`ios` (claim C1). -/
def payloadC1 : Value :=
  vobj [("mobile", vobj [("schema", vobj [("a", vobj [])])]),
        ("ios", vobj [("schema", vobj [("b", vobj [])])])]

/-- Target-group table with two named groups overlapping on `x` without a
subset relation (claim C1, amended part). -/
def cfgC1b : List (String × List String) :=
  [("all", ["w", "x", "y"]), ("g1", ["w", "x"]), ("g2", ["x", "y"])]

/-- Event payload declared for the two non-nested groups `g1` and `g2`
(claim C1, amended part). -/
def payloadC1b : Value :=
  vobj [("g1", vobj [("schema", vobj [("a", vobj [])])]),
        ("g2", vobj [("schema", vobj [("b", vobj [])])])]

/-- Single-target table used by the versioned scenarios. -/
def cfgWeb : List (String × List String) := [("all", ["web"])]

/-- Versioned payload whose `v1` inherits from `v2` through `$ref` with a
conflicting field type (claim C3). -/
def payloadC3 : Value :=
  vobj [("web", vobj [("current", vstr "v1"),
          ("v1", vobj [("$ref", vstr "v2"),
                       ("schema", vobj [("f", vobj [("type", vstr "number")])])]),
          ("v2", vobj [("schema", vobj [("f", vobj [("type", vstr "string")])])])])]

/-- Spec baseline schema declaring `app_id` as required (claim C2). -/
def baseSchemaC2 : Schema := [("app_id", { required := some (vbool true) })]

/-- Event payload weakening `app_id` to `required: false` (claim C2). -/
def payloadC2 : Value :=
  vobj [("schema", vobj [("app_id", vobj [("required", vbool false)])])]

/-- Spec baseline schema declaring field `f` of type `string` (claim C3,
baseline side). -/
def baseSchemaC3 : Schema := [("f", { type := some (vstr "string") })]

/-- Event payload declaring field `f` of type `number` (claim C3, baseline
side). -/
def payloadC3base : Value :=
  vobj [("schema", vobj [("f", vobj [("type", vstr "number")])])]

/-- Successful lookup exhibits a matching entry. -/
theorem lookup_mem {α : Type} {l : List (String × α)} {k : String} {v : α}
    (h : l.lookup k = some v) : (k, v) ∈ l := by
  induction l with
  | nil => simp [List.lookup] at h
  | cons p l ih =>
    obtain ⟨k1, v1⟩ := p
    rw [List.lookup] at h
    by_cases hk : k == k1
    · simp [hk] at h
      simp at hk
      simp [hk, h.symm]
    · simp [hk] at h
      exact List.mem_cons_of_mem _ (ih h)

/-- Lookup of a key matching no entry fails. -/
theorem lookup_eq_none {α : Type} {l : List (String × α)} {k : String}
    (h : ∀ p ∈ l, p.1 ≠ k) : l.lookup k = none := by
  induction l with
  | nil => simp [List.lookup]
  | cons p l ih =>
    obtain ⟨k1, v1⟩ := p
    rw [List.lookup]
    have hp : k1 ≠ k := h (k1, v1) (List.mem_cons_self _ _)
    have hb : (k == k1) = false := by
      simp
      exact fun he => hp he.symm
    rw [hb]
    exact ih (fun q hq => h q (List.mem_cons_of_mem _ hq))

/-- Lookup distributes over append, first list first. -/
theorem lookup_append_some {α : Type} {l₁ l₂ : List (String × α)} {k : String} {v : α}
    (h : l₁.lookup k = some v) : (l₁ ++ l₂).lookup k = some v := by
  induction l₁ with
  | nil => simp [List.lookup] at h
  | cons p l ih =>
    obtain ⟨k1, v1⟩ := p
    rw [List.lookup] at h
    rw [show (k1, v1) :: l ++ l₂ = (k1, v1) :: (l ++ l₂) from rfl, List.lookup]
    by_cases hk : k == k1
    · simpa [hk] using h
    · simp only [hk] at h ⊢
      exact ih h

/-- Lookup falls through to the second list when the first has no match. -/
theorem lookup_append_none {α : Type} {l₁ l₂ : List (String × α)} {k : String}
    (h : l₁.lookup k = none) : (l₁ ++ l₂).lookup k = l₂.lookup k := by
  induction l₁ with
  | nil => simp
  | cons p l ih =>
    obtain ⟨k1, v1⟩ := p
    rw [List.lookup] at h
    rw [show (k1, v1) :: l ++ l₂ = (k1, v1) :: (l ++ l₂) from rfl, List.lookup]
    by_cases hk : k == k1
    · simp [hk] at h
    · simp only [hk] at h ⊢
      exact ih h

/-- Boolean not equal to true is false. -/
theorem bool_eq_false {b : Bool} (h : ¬ b = true) : b = false := by
  cases b
  · rfl
  · exact absurd rfl h

/-- Growing the visited set never increases the number of unvisited keys. -/
theorem countNew_mono (keys : List String) (v w : List String)
    (h : ∀ x, v.contains x = true → w.contains x = true) :
    countNew keys w ≤ countNew keys v := by
  induction keys with
  | nil => simp [countNew]
  | cons k ks ih =>
    unfold countNew at ih ⊢
    rw [List.filter_cons, List.filter_cons]
    by_cases hw : w.contains k = true
    · have hwb : (!(w.contains k)) = false := by rw [hw, Bool.not_true]
      simp only [hwb, if_false]
      by_cases hv : v.contains k = true
      · have hvb : (!(v.contains k)) = false := by rw [hv, Bool.not_true]
        simp only [hvb, if_false]
        exact ih
      · have hvb : (!(v.contains k)) = true := by rw [bool_eq_false hv, Bool.not_false]
        simp only [hvb, if_true, List.length_cons]
        exact Nat.le_succ_of_le ih
    · have hv : v.contains k = false := by
        by_contra hc
        exact hw (h k (by
          cases hcv : v.contains k
          · exact absurd hcv hc
          · rfl))
      have hwb : (!(w.contains k)) = true := by rw [bool_eq_false hw, Bool.not_false]
      have hvb : (!(v.contains k)) = true := by rw [hv, Bool.not_false]
      simp only [hwb, hvb, if_true, List.length_cons]
      exact Nat.succ_le_succ ih

/-- Visiting a fresh key of the key list strictly decreases the number of
unvisited keys: the step case of every termination argument of the engine. -/
theorem countNew_lt (keys : List String) (v w : List String) (a : String)
    (ha : a ∈ keys) (hav : v.contains a = false) (haw : w.contains a = true)
    (h : ∀ x, v.contains x = true → w.contains x = true) :
    countNew keys w < countNew keys v := by
  induction keys with
  | nil => cases ha
  | cons k ks ih =>
    unfold countNew at ih ⊢
    rw [List.filter_cons, List.filter_cons]
    by_cases hk : k = a
    · subst hk
      have hwb : (!(w.contains k)) = false := by rw [haw, Bool.not_true]
      have hvb : (!(v.contains k)) = true := by rw [hav, Bool.not_false]
      simp only [hwb, hvb, if_false, if_true, List.length_cons]
      exact Nat.lt_succ_of_le (countNew_mono ks v w h)
    · have ha' : a ∈ ks := by
        cases ha with
        | head => exact absurd rfl hk
        | tail _ hmem => exact hmem
      by_cases hw : w.contains k = true
      · have hwb : (!(w.contains k)) = false := by rw [hw, Bool.not_true]
        simp only [hwb, if_false]
        by_cases hv : v.contains k = true
        · have hvb : (!(v.contains k)) = false := by rw [hv, Bool.not_true]
          simp only [hvb, if_false]
          exact ih ha'
        · have hvb : (!(v.contains k)) = true := by rw [bool_eq_false hv, Bool.not_false]
          simp only [hvb, if_true, List.length_cons]
          exact Nat.lt_succ_of_lt (ih ha')
      · have hv : v.contains k = false := by
          by_contra hc
          exact hw (h k (by
            cases hcv : v.contains k
            · exact absurd hcv hc
            · rfl))
        have hwb : (!(w.contains k)) = true := by rw [bool_eq_false hw, Bool.not_false]
        have hvb : (!(v.contains k)) = true := by rw [hv, Bool.not_false]
        simp only [hwb, hvb, if_true, List.length_cons]
        exact Nat.succ_lt_succ (ih ha')

/-- Bridge between boolean `contains` and membership for strings. -/
theorem contains_true_iff (l : List String) (a : String) :
    l.contains a = true ↔ a ∈ l := by
  simp

/-- Membership after consing onto the visited list. -/
theorem contains_cons_self (visited : List String) (cur : String) :
    (cur :: visited).contains cur = true := by
  rw [contains_true_iff]
  exact List.mem_cons_self _ _

/-- Consing preserves prior membership. -/
theorem contains_cons_of (visited : List String) (cur : String) :
    ∀ x, visited.contains x = true → (cur :: visited).contains x = true := by
  intro x hx
  rw [contains_true_iff] at hx ⊢
  exact List.mem_cons_of_mem _ hx

/-- Negated membership gives a false `contains`. -/
theorem contains_false_of_not_mem {l : List String} {a : String} (h : ¬ a ∈ l) :
    l.contains a = false :=
  bool_eq_false (fun hc => h ((contains_true_iff _ _).mp hc))

/-- Fuel sufficiency of the alias chase: with more fuel than unvisited alias
keys, `raovGo` always returns (the `while (true)` loop of
`resolveAliasOrVersion` terminates on every input). -/
theorem raovGo_isSome (versions : List (String × PayloadVersion))
    (aliases : List (String × String)) (name path : String) :
    ∀ fuel visited cur issues,
      countNew (aliases.map Prod.fst) visited < fuel →
      (raovGo versions aliases name path fuel visited cur issues).isSome := by
  intro fuel
  induction fuel with
  | zero => intro visited cur issues h; exact absurd h (Nat.not_lt_zero _)
  | succ fuel ih =>
    intro visited cur issues h
    rw [raovGo]
    by_cases h1 : visited.contains cur = true
    · rw [if_pos h1]
      simp
    · rw [if_neg h1]
      by_cases h2 : (versions.lookup cur).isSome = true
      · simp [h2]
      · rw [if_neg h2]
        cases h3 : aliases.lookup cur with
        | none => simp
        | some next =>
          apply ih
          have hmem : cur ∈ aliases.map Prod.fst :=
            List.mem_map_of_mem Prod.fst (lookup_mem h3)
          have hlt := countNew_lt (aliases.map Prod.fst) visited (cur :: visited) cur
            hmem (bool_eq_false h1) (contains_cons_self visited cur)
            (contains_cons_of visited cur)
          exact Nat.lt_of_lt_of_le hlt (Nat.lt_succ_iff.mp h)

/-- Fuel sufficiency of the cross-selector alias chase: each continuing step
consumes one fresh `selector::alias` identifier. -/
theorem rsaovGo_isSome (selPayloads : List (String × NormalizedTargetPayload))
    (fromPath : String) :
    ∀ fuel visited cur issues,
      countNew (allAliasIds selPayloads) visited < fuel →
      (rsaovGo selPayloads fromPath fuel visited cur issues).isSome := by
  intro fuel
  induction fuel with
  | zero => intro visited cur issues h; exact absurd h (Nat.not_lt_zero _)
  | succ fuel ih =>
    intro visited cur issues h
    simp only [rsaovGo]
    split
    · simp
    next h1 =>
      split
      · simp
      next scope h2 =>
        split
        · simp
        next h3 =>
          split
          · simp
          next nx h4 =>
            split
            · simp
            next parsed h5 =>
              apply ih
              have h1b : visited.contains (scopeId cur.1 cur.2) = false := by
                cases hcb : visited.contains (scopeId cur.1 cur.2)
                · rfl
                · exact absurd hcb (by simpa using h1)
              have hmem : scopeId cur.1 cur.2 ∈ allAliasIds selPayloads := by
                unfold allAliasIds
                refine List.mem_flatMap.mpr ⟨(cur.1, scope), lookup_mem h2, ?_⟩
                exact List.mem_map.mpr ⟨(cur.2, nx), lookup_mem h4, rfl⟩
              have hlt := countNew_lt (allAliasIds selPayloads) visited
                (scopeId cur.1 cur.2 :: visited) (scopeId cur.1 cur.2)
                hmem h1b (contains_cons_self _ _) (contains_cons_of _ _)
              exact Nat.lt_of_lt_of_le hlt (Nat.lt_succ_iff.mp h)

/-- Mapping over an option preserves definedness. -/
theorem isSome_map_opt {α β : Type} (f : α → β) (o : Option α) :
    (o.map f).isSome = o.isSome := by
  cases o <;> rfl

/-- A key pushed at the end of the stack is on the stack. -/
theorem contains_append_self (stack : List String) (k : String) :
    (stack ++ [k]).contains k = true := by
  rw [contains_true_iff]
  exact List.mem_append_right _ (List.mem_singleton.mpr rfl)

/-- Pushing at the end preserves prior stack membership. -/
theorem contains_append_of (stack : List String) (k : String) :
    ∀ x, stack.contains x = true → (stack ++ [k]).contains x = true := by
  intro x hx
  rw [contains_true_iff] at hx ⊢
  exact List.mem_append_left _ hx

/-- Fuel sufficiency of the cross-selector `$ref` recursion: each recursive
call pushes one fresh `selector::version` identifier onto the stack
(`resolveSelectorSchema` terminates on every input). -/
theorem rssGo_isSome (selPayloads : List (String × NormalizedTargetPayload)) :
    ∀ fuel selector versionKey stack st,
      countNew (allVersionIds selPayloads) stack < fuel →
      (rssGo selPayloads fuel selector versionKey stack st).isSome := by
  intro fuel
  induction fuel with
  | zero => intro selector versionKey stack st h; exact absurd h (Nat.not_lt_zero _)
  | succ fuel ih =>
    intro selector versionKey stack st h
    simp only [rssGo]
    split
    · simp
    split
    · simp
    next h1 =>
      split
      · simp
      next scope h2 =>
        split
        · simp
        next version h3 =>
          rw [isSome_map_opt]
          split
          · simp
          · split
            · simp
            · split
              · simp
              · split
                · simp
                next resolved issues h5 =>
                  split
                  · simp
                  next h6 =>
                    rw [isSome_map_opt]
                    apply ih
                    have h1b : stack.contains (scopeId selector versionKey) = false := by
                      cases hcb : stack.contains (scopeId selector versionKey)
                      · rfl
                      · exact absurd hcb (by simpa using h1)
                    have hmem : scopeId selector versionKey ∈ allVersionIds selPayloads := by
                      unfold allVersionIds
                      refine List.mem_flatMap.mpr ⟨(selector, scope), lookup_mem h2, ?_⟩
                      exact List.mem_map.mpr ⟨(versionKey, version), lookup_mem h3, rfl⟩
                    have hlt := countNew_lt (allVersionIds selPayloads) stack
                      (stack ++ [scopeId selector versionKey]) (scopeId selector versionKey)
                      hmem h1b (contains_append_self _ _) (contains_append_of _ _)
                    exact Nat.lt_of_lt_of_le hlt (Nat.lt_succ_iff.mp h)
          · simp

/-- Fuel sufficiency of the per-target `$ref` recursion: each recursive call
pushes one fresh version key onto the stack (`resolveRefSchema` terminates on
every input). -/
theorem rrsGo_isSome (selPayloads : List (String × NormalizedTargetPayload))
    (versions : List (String × PayloadVersion))
    (resolvedAliases : List (String × String)) (basePath : String) :
    ∀ fuel versionKey stack cache st,
      countNew (versions.map Prod.fst) stack < fuel →
      (rrsGo selPayloads versions resolvedAliases basePath fuel versionKey stack cache st).isSome := by
  intro fuel
  induction fuel with
  | zero => intro versionKey stack cache st h; exact absurd h (Nat.not_lt_zero _)
  | succ fuel ih =>
    intro versionKey stack cache st h
    simp only [rrsGo]
    split
    · simp
    split
    · simp
    next h1 =>
      split
      · simp
      next version h3 =>
        rw [isSome_map_opt]
        split
        · simp
        · split
          · simp
          · split
            · split
              · simp
              · simp
            · split
              next refKey issues h5 =>
                split
                next h6 =>
                  rw [isSome_map_opt]
                  apply ih
                  have h1b : stack.contains versionKey = false := by
                    cases hcb : stack.contains versionKey
                    · rfl
                    · exact absurd hcb (by simpa using h1)
                  have hmem : versionKey ∈ versions.map Prod.fst :=
                    List.mem_map_of_mem Prod.fst (lookup_mem h3)
                  have hlt := countNew_lt (versions.map Prod.fst) stack
                    (stack ++ [versionKey]) versionKey
                    hmem h1b (contains_append_self _ _) (contains_append_of _ _)
                  exact Nat.lt_of_lt_of_le hlt (Nat.lt_succ_iff.mp h)
                · split
                  · simp
                  · simp
              · simp
        · simp

/-- C5: for spec target groups `{all: [web, ios], mobile: [ios]}` and payload
`{mobile: {schema: {user_id: {required: true}}}, web: {schema: {session_id:
{required: true}}}}`, `resolveEventPayload` yields target `ios` with exactly
the field `user_id`, target `web` with exactly the field `session_id`, and an
empty issue list. -/
theorem spec_C5 :
    (resolveEventPayload payloadC5 cfgC5).2 = [] ∧
    ((resolveEventPayload payloadC5 cfgC5).1.targets.lookup ("ios")).map
        (fun t => t.versions.map (fun q => (q.1, q.2.schema.map Prod.fst))) =
      some [(UNVERSIONED_VERSION_KEY, ["user_id"])] ∧
    ((resolveEventPayload payloadC5 cfgC5).1.targets.lookup ("web")).map
        (fun t => t.versions.map (fun q => (q.1, q.2.schema.map Prod.fst))) =
      some [(UNVERSIONED_VERSION_KEY, ["session_id"])] :=
  ⟨rfl, rfl, rfl⟩

/-- C1 counterexample: selectors `mobile` (group `[ios]`) and `ios` (member of
`targets.all`) are two different selectors that both cover the concrete
target `ios`, yet resolution emits no issue at all (so no coverage-conflict
issue naming both selectors), and both selectors' claims survive: the
resolved `ios` schema contains `mobile`'s field `a` and `ios`'s field `b`.
This refutes both the first-selector-wins rule and the
one-issue-per-subsequent-claim rule of the claim. -/
theorem spec_C1_counterexample :
    (resolveEventPayload payloadC1 cfgC1).2 = [] ∧
    ((resolveEventPayload payloadC1 cfgC1).1.targets.lookup ("ios")).map
        (fun t => t.versions.map (fun q => (q.1, q.2.schema.map Prod.fst))) =
      some [(UNVERSIONED_VERSION_KEY, ["a", "b"])] :=
  ⟨rfl, rfl⟩

/-- Issue count of the ambiguity check: one issue per ordered pair of
applicable selectors whose target sets are not related by inclusion. -/
theorem ambiguityIssues_length (target : String) (applicable : List SelectorInfo) :
    (ambiguityIssues target applicable).length =
      ((allPairs applicable).filter
        (fun pr => !(isSubset pr.1.targets pr.2.targets || isSubset pr.2.targets pr.1.targets))).length := by
  unfold ambiguityIssues
  have key : ∀ (l : List (SelectorInfo × SelectorInfo)) (acc : List PayloadIssue),
      (l.foldl
        (fun acc pr =>
          if !(isSubset pr.1.targets pr.2.targets || isSubset pr.2.targets pr.1.targets) then
            acc ++ [{ path := "payload." ++ target
                      message := "Ambiguous selectors for \x27" ++ target ++ "\x27: \x27" ++ pr.1.name ++
                        "\x27 and \x27" ++ pr.2.name ++ "\x27 overlap without subset relation" }]
          else acc)
        acc).length =
      acc.length +
        (l.filter
          (fun pr => !(isSubset pr.1.targets pr.2.targets || isSubset pr.2.targets pr.1.targets))).length := by
    intro l
    induction l with
    | nil => intro acc; simp
    | cons x l ih =>
      intro acc
      rw [List.foldl_cons, List.filter_cons]
      by_cases hx : (!(isSubset x.1.targets x.2.targets || isSubset x.2.targets x.1.targets)) = true
      · rw [if_pos hx, ih, hx]
        simp
        omega
      · rw [if_neg hx, ih, bool_eq_false hx]
        simp
  rw [key]
  simp

/-- C1 amended: overlapping selectors are not resolved first-wins and a
second claim of a target is not always an issue.  Instead: (a) the ambiguity
check emits exactly one `Ambiguous selectors` issue per pair of applicable
selectors whose target sets are not related by inclusion; (b) two selectors
with subset-related (here equal) target sets merge silently and both claims
survive in the output (scenario of `payloadC1`); (c) for two selectors whose
target sets overlap without a subset relation, exactly one issue naming both
selectors is emitted, and their payloads are still merged broad-to-narrow
rather than one claim being dropped (scenario of `payloadC1b`). -/
theorem spec_C1 :
    (∀ target applicable,
      (ambiguityIssues target applicable).length =
        ((allPairs applicable).filter
          (fun pr => !(isSubset pr.1.targets pr.2.targets || isSubset pr.2.targets pr.1.targets))).length) ∧
    ((resolveEventPayload payloadC1 cfgC1).2 = [] ∧
      ((resolveEventPayload payloadC1 cfgC1).1.targets.lookup ("ios")).map
          (fun t => t.versions.map (fun q => (q.1, q.2.schema.map Prod.fst))) =
        some [(UNVERSIONED_VERSION_KEY, ["a", "b"])]) ∧
    ((resolveEventPayload payloadC1b cfgC1b).2 =
        [{ path := "payload.x"
           message := "Ambiguous selectors for \x27x\x27: \x27g1\x27 and \x27g2\x27 overlap without subset relation" }] ∧
      ((resolveEventPayload payloadC1b cfgC1b).1.targets.lookup ("x")).map
          (fun t => t.versions.map (fun q => (q.1, q.2.schema.map Prod.fst))) =
        some [(UNVERSIONED_VERSION_KEY, ["a", "b"])]) :=
  ⟨ambiguityIssues_length, ⟨rfl, rfl⟩, ⟨rfl, rfl⟩⟩

/-- C2: spec baseline `app_id: {required: true}` against event schema
`{app_id: {required: false}}` — resolution plus validation produces exactly
one error, the `Cannot weaken required field` diagnostic, for every
dictionary table and every external checker (none of which is consulted);
the resolved event schema carries `required: false`, and the merged effective
schema keeps the override value `required: false` (the merge completes, it is
not rejected). -/
theorem spec_C2 : ∀ (dicts : List (String × List Value))
    (vc : Field → Value → String → List ValidationError)
    (rc : Value → String → Value → List String)
    (pc : String → String → Value → List ValidationError),
    validatePayload baseSchemaC2 [] cfgWeb payloadC2 [] dicts vc rc pc =
      [{ path := "payload.web.schema.app_id"
         message := "Cannot weaken required field (base required=true, override required=false)" }] ∧
    ((resolveEventPayload payloadC2 cfgWeb).1.targets.lookup ("web")).map
        (fun t => t.versions.map (fun q => (q.1, q.2.schema))) =
      some [(UNVERSIONED_VERSION_KEY, [("app_id", { required := some (vbool false) })])] ∧
    (mergeSchemaMaps (mergeSchemaMaps baseSchemaC2 [])
        [("app_id", { required := some (vbool false) })]).lookup ("app_id") =
      some { required := some (vbool false) } :=
  fun _ _ _ _ => ⟨rfl, rfl, rfl⟩

/-- C3 counterexample: the version `v1` of `payloadC3` inherits field `f` of
type `string` from `v2` through `$ref` while declaring type `number` itself —
the very conflict that yields a `Field type conflict` diagnostic when the
same two layers meet as spec baseline and event schema (`baseSchemaC3`
against `payloadC3base`) — yet `$ref` resolution emits no issue at all.  The
merge itself still completes with the override type.  So the `$ref` boundary
does not emit the same type-mismatch (nor required-weakening) issues as the
baseline boundary, refuting the claim. -/
theorem spec_C3_counterexample :
    (resolveEventPayload payloadC3 cfgWeb).2 = [] ∧
    (((resolveEventPayload payloadC3 cfgWeb).1.targets.lookup ("web")).bind
        (fun t => (t.versions.lookup ("v1")).map
          (fun q => q.schema.map (fun f => (f.1, f.2.type))))) =
      some [("f", some (vstr "number"))] ∧
    validatePayload baseSchemaC3 [] cfgWeb payloadC3base [] []
        (fun _ _ _ => []) (fun _ _ _ => []) (fun _ _ _ => []) =
      [{ path := "payload.web.schema.f"
         message := "Field type conflict: base \x27string\x27 vs override \x27number\x27" }] :=
  ⟨rfl, rfl, rfl⟩

/-- C6 counterexample: when the base field itself carries both a fixed
`value` and an `enum` and the override sets none of the three mechanisms,
`mergeField` preserves both — more than one of `{value, enum, dict}` survives
the merge, refuting the universally quantified exclusivity conclusion. -/
theorem spec_C6_counterexample :
    (mergeField { value := some (vstr "red"), enum := some (varr [vstr "red", vstr "blue"]) }
        ({} : Field)).value = some (vstr "red") ∧
    (mergeField { value := some (vstr "red"), enum := some (varr [vstr "red", vstr "blue"]) }
        ({} : Field)).enum = some (varr [vstr "red", vstr "blue"]) :=
  ⟨rfl, rfl⟩

/-- C6 amended: the three override-driven clearing rules hold exactly as
stated, and at most one of `{value, enum, dict}` survives the merge whenever
the override sets at least one of them; when the override sets none of the
three, the base field passes through unchanged in these properties, so a base
field that already violated exclusivity keeps its violation (the case the
counterexample exhibits).  The two concrete merges of the claim hold. -/
theorem spec_C6 :
    (∀ base override : Field,
      (override.value.isSome = true →
        (mergeField base override).enum = none ∧ (mergeField base override).dict = none) ∧
      (override.value = none → override.enum.isSome = true →
        (mergeField base override).value = none ∧ (mergeField base override).dict = none) ∧
      (override.value = none → override.enum = none → override.dict.isSome = true →
        (mergeField base override).value = none ∧ (mergeField base override).enum = none) ∧
      ((override.value.isSome || override.enum.isSome || override.dict.isSome) = true →
        (cond (mergeField base override).value.isSome 1 0) +
          (cond (mergeField base override).enum.isSome 1 0) +
          (cond (mergeField base override).dict.isSome 1 0) ≤ 1)) ∧
    mergeField { dict := some (vstr "colors") } { value := some (vstr "red") } =
      ({ value := some (vstr "red") } : Field) ∧
    mergeField { value := some (vstr "red") } { enum := some (varr [vstr "red", vstr "blue"]) } =
      ({ enum := some (varr [vstr "red", vstr "blue"]) } : Field) := by
  refine ⟨?_, rfl, rfl⟩
  intro base override
  refine ⟨?_, ?_, ?_, ?_⟩
  · intro hs
    obtain ⟨v, hv⟩ := Option.isSome_iff_exists.mp hs
    constructor <;> simp [mergeField, hv]
  · intro h0 hs
    obtain ⟨e, he⟩ := Option.isSome_iff_exists.mp hs
    constructor <;> simp [mergeField, h0, he]
  · intro h0 h1 hs
    obtain ⟨d, hd⟩ := Option.isSome_iff_exists.mp hs
    constructor <;> simp [mergeField, h0, h1, hd]
  · intro hs
    cases hv : override.value with
    | some v => simp [mergeField, hv, optOr]
    | none =>
      cases he : override.enum with
      | some e => simp [mergeField, hv, he, optOr]
      | none =>
        cases hd : override.dict with
        | some d => simp [mergeField, hv, he, hd, optOr]
        | none =>
          rw [hv, he, hd] at hs
          simp at hs

/-- C10: a length-1 `$ref` cycle is silently ignored.  Whenever a version's
`$ref` (a same-scope reference, resolved directly or through aliases by
`sameScopeRefKey` without appending an issue) comes back to the version's own
key, `resolveRefSchema` returns exactly the version's own schema map with no
base merged in, caches it, and appends no issue whatsoever. -/
theorem spec_C10 (selP : List (String × NormalizedTargetPayload))
    (versions : List (String × PayloadVersion))
    (resolvedAliases : List (String × String)) (basePath versionKey : String)
    (cache : List (String × Schema)) (st : EngineSt)
    (version : PayloadVersion) (r : String)
    (hcache : cache.lookup versionKey = none)
    (hver : versions.lookup versionKey = some version)
    (href : version.ref = some (vstr r)) (hr : ¬ r = "")
    (hsep : findSep r.data = none)
    (hself : sameScopeRefKey versions resolvedAliases r
        (basePath ++ "." ++ versionKey ++ ".$ref") st.issues = (some versionKey, st.issues))
    (hk : ¬ versionKey = "") :
    resolveRefSchema selP versions resolvedAliases basePath versionKey [] cache st =
      (version.schema, objSet cache versionKey version.schema, st) := by
  unfold resolveRefSchema
  rw [rrsGo]
  rw [hcache]
  have hstack : (([] : List String).contains versionKey) = false := rfl
  rw [if_neg (by rw [hstack]; exact Bool.false_ne_true)]
  rw [hver]
  simp only [href]
  rw [if_neg hr]
  rw [if_neg (by rw [hsep]; exact Bool.false_ne_true)]
  rw [hself]
  dsimp only
  have hcond : (decide (versionKey ≠ "") && decide (versionKey ≠ versionKey)) = false := by
    simp
  rw [if_neg (by rw [hcond]; exact Bool.false_ne_true)]
  rw [if_neg hk]
  rfl

/-- C10 witness: the version `v1` whose `$ref` reaches itself through the
one-hop alias `self` resolves to its own schema with no issue. -/
theorem spec_C10_witness :
    resolveRefSchema [] [("v1", { ref := some (vstr "self"), schema := [("f", {})] })]
        [("self", "v1")] "payload.web" "v1" [] [] { issues := [], extCache := [] } =
      ([("f", {})], [("v1", [("f", {})])], { issues := [], extCache := [] }) :=
  spec_C10 [] [("v1", { ref := some (vstr "self"), schema := [("f", {})] })]
    [("self", "v1")] "payload.web" "v1" [] { issues := [], extCache := [] }
    { ref := some (vstr "self"), schema := [("f", {})] } "self"
    rfl rfl rfl (by decide) rfl rfl (by decide)

/-- Chase step that hits a version key: returns it, appending no issue. -/
theorem raovGo_hit (versions : List (String × PayloadVersion))
    (aliases : List (String × String)) (name path : String) (fuel : Nat)
    (visited : List String) (cur : String) (issues : List PayloadIssue)
    (hnv : ¬ cur ∈ visited) (hvk : (versions.lookup cur).isSome = true) :
    raovGo versions aliases name path (fuel + 1) visited cur issues =
      some (some cur, issues) := by
  rw [raovGo]
  rw [if_neg (by rw [contains_false_of_not_mem hnv]; exact Bool.false_ne_true)]
  rw [if_pos hvk]

/-- Chase step through one alias hop. -/
theorem raovGo_step (versions : List (String × PayloadVersion))
    (aliases : List (String × String)) (name path : String) (fuel : Nat)
    (visited : List String) (cur nx : String) (issues : List PayloadIssue)
    (hnv : ¬ cur ∈ visited) (hver : versions.lookup cur = none)
    (hal : aliases.lookup cur = some nx) :
    raovGo versions aliases name path (fuel + 1) visited cur issues =
      raovGo versions aliases name path fuel (cur :: visited) nx issues := by
  rw [raovGo]
  rw [if_neg (by rw [contains_false_of_not_mem hnv]; exact Bool.false_ne_true)]
  rw [if_neg (by rw [hver]; exact Bool.false_ne_true)]
  rw [hal]

/-- Two distinct members force a list of length at least two. -/
theorem two_mem_length {α : Type} {l : List α} {x y : α} (hx : x ∈ l) (hy : y ∈ l)
    (hxy : x ≠ y) : 2 ≤ l.length := by
  match l with
  | [] => cases hx
  | [z] =>
    rw [List.mem_singleton] at hx hy
    exact absurd (hx.trans hy.symm) hxy
  | _ :: _ :: _ => simp [List.length_cons]

/-- C9: a name that is itself a version key resolves to itself with no issue;
an alias pointing directly at a version key resolves to that key with no
issue; and a two-hop alias chain `a → b → vk` resolves to the same version
key as the collapsed one-hop chain `a → vk`, again with no issue. -/
theorem spec_C9 (versions : List (String × PayloadVersion))
    (issues : List PayloadIssue) (path : String) (a b vk : String)
    (al1 al2 : List (String × String))
    (hvk : (versions.lookup vk).isSome = true)
    (hanv : versions.lookup a = none)
    (ha1 : al1.lookup a = some vk)
    (h2a : al2.lookup a = some b) (h2b : al2.lookup b = some vk)
    (hbnv : versions.lookup b = none)
    (hba : b ≠ a) (hva : vk ≠ a) (hvb : vk ≠ b) :
    resolveAliasOrVersion vk versions al1 issues path = (some vk, issues) ∧
    resolveAliasOrVersion a versions al1 issues path = (some vk, issues) ∧
    resolveAliasOrVersion a versions al2 issues path = (some vk, issues) := by
  refine ⟨?_, ?_, ?_⟩
  · unfold resolveAliasOrVersion
    rw [raovGo_hit versions al1 vk path al1.length [] vk issues (by simp) hvk]
    rfl
  · unfold resolveAliasOrVersion
    have hlen : 1 ≤ al1.length := by
      have := lookup_mem ha1
      cases al1
      · cases this
      · simp [List.length_cons]
    obtain ⟨m, hm⟩ := Nat.exists_eq_add_of_le hlen
    rw [hm]
    rw [show 1 + m + 1 = (m + 1) + 1 from by omega]
    rw [raovGo_step versions al1 a path (m + 1) [] a vk issues (by simp) hanv ha1]
    rw [raovGo_hit versions al1 a path m [a] vk issues (by simp [hva]) hvk]
    rfl
  · unfold resolveAliasOrVersion
    have hlen : 2 ≤ al2.length := by
      refine two_mem_length (lookup_mem h2a) (lookup_mem h2b) ?_
      intro he
      exact hba (congrArg Prod.fst he).symm
    obtain ⟨m, hm⟩ := Nat.exists_eq_add_of_le hlen
    rw [hm]
    rw [show 2 + m + 1 = (m + 1 + 1) + 1 from by omega]
    rw [raovGo_step versions al2 a path (m + 1 + 1) [] a b issues (by simp) hanv h2a]
    rw [raovGo_step versions al2 a path (m + 1) [a] b vk issues (by simp [hba]) hbnv h2b]
    rw [raovGo_hit versions al2 a path m [b, a] vk issues (by simp [hva, hvb]) hvk]
    rfl

/-- C9 witness: with version `v1`, direct resolution, the one-hop alias
`a → v1` and the two-hop chain `a → b → v1` all return `v1` with no issue. -/
theorem spec_C9_witness :
    resolveAliasOrVersion "v1" [("v1", {})] [("a", "v1")] [] "p" = (some "v1", []) ∧
    resolveAliasOrVersion "a" [("v1", {})] [("a", "v1")] [] "p" = (some "v1", []) ∧
    resolveAliasOrVersion "a" [("v1", {})] [("a", "b"), ("b", "v1")] [] "p" = (some "v1", []) :=
  spec_C9 [("v1", {})] [] "p" "a" "b" "v1" [("a", "v1")] [("a", "b"), ("b", "v1")]
    rfl rfl rfl rfl rfl rfl (by decide) (by decide) (by decide)

/-- Names built from replicated characters are injective in the index. -/
theorem repl_name_inj (c : Char) (i j : Nat)
    (h : String.mk (List.replicate (i + 1) c) = String.mk (List.replicate (j + 1) c)) :
    i = j := by
  have hd : List.replicate (i + 1) c = List.replicate (j + 1) c := congrArg String.data h
  have hl := congrArg List.length hd
  simp [List.length_replicate] at hl
  exact hl

/-- The canonical alias names are pairwise distinct. -/
theorem aname_inj (i j : Nat) (h : aname i = aname j) : i = j :=
  repl_name_inj 'a' i j h

/-- The canonical version names are pairwise distinct. -/
theorem vname_inj (i j : Nat) (h : vname i = vname j) : i = j :=
  repl_name_inj 'f' i j h

/-- Canonical version names are nonempty. -/
theorem vname_ne_empty (i : Nat) : ¬ vname i = "" := by
  intro h
  have hd : List.replicate (i + 1) 'f' = "".data := congrArg String.data h
  have hl := congrArg List.length hd
  simp [List.length_replicate] at hl

/-- Lists without a colon pair have no `::` separator. -/
theorem findSep_none (cs : List Char) (h : ∀ c ∈ cs, ¬ c = ':') :
    findSep cs = none := by
  induction cs with
  | nil => rfl
  | cons c cs ih =>
    cases cs with
    | nil => rfl
    | cons c2 cs2 =>
      rw [findSep]
      have hc : (c = ':' && c2 = ':') = false := by
        have := h c (List.mem_cons_self _ _)
        simp [this]
      rw [hc]
      rw [if_neg Bool.false_ne_true]
      rw [ih (fun x hx => h x (List.mem_cons_of_mem _ hx))]

/-- Canonical version names contain no `::` separator. -/
theorem findSep_vname (i : Nat) : findSep (vname i).data = none := by
  apply findSep_none
  intro c hc
  have := List.eq_of_mem_replicate hc
  rw [this]
  decide

/-- Lookup over a range-indexed family of entries with injective keys. -/
theorem lookup_map_range {β : Type} (g : Nat → String) (fv : Nat → β)
    (hinj : ∀ i j, g i = g j → i = j) (n j : Nat) (hj : j < n) :
    (((List.range n).map (fun i => (g i, fv i))).lookup (g j)) = some (fv j) := by
  induction n with
  | zero => omega
  | succ n ih =>
    rw [List.range_succ, List.map_append]
    by_cases hjn : j < n
    · exact lookup_append_some (ih hjn)
    · have hj_eq : j = n := by omega
      subst hj_eq
      have hnone : (((List.range j).map (fun i => (g i, fv i))).lookup (g j)) = none := by
        apply lookup_eq_none
        intro p hp
        obtain ⟨i, hi, hpe⟩ := List.mem_map.mp hp
        rw [← hpe]
        intro hgi
        have := hinj i j hgi
        rw [List.mem_range] at hi
        omega
      rw [lookup_append_none hnone]
      simp [List.lookup]

/-- A range-indexed name with index at the bound is absent from the mapped
range. -/
theorem name_not_mem_map_range (g : Nat → String)
    (hinj : ∀ i j, g i = g j → i = j) (n j : Nat) (hn : n ≤ j) :
    ¬ g j ∈ (List.range n).map g := by
  intro h
  obtain ⟨i, hi, he⟩ := List.mem_map.mp h
  rw [List.mem_range] at hi
  have := hinj i j he
  omega

/-- Chase step that revisits a name: exactly one cycle issue, no key. -/
theorem raovGo_cycle (versions : List (String × PayloadVersion))
    (aliases : List (String × String)) (name path : String) (fuel : Nat)
    (visited : List String) (cur : String) (issues : List PayloadIssue)
    (hmem : cur ∈ visited) :
    raovGo versions aliases name path (fuel + 1) visited cur issues =
      some (none, issues ++ [{ path := path
                               message := "Alias cycle detected at \x27" ++ cur ++ "\x27" }]) := by
  rw [raovGo]
  rw [if_pos ((contains_true_iff _ _).mpr hmem)]

/-- Full chase of the canonical alias cycle of length `n`, started at
position `j` with the first `j` names already visited: it always ends in the
single cycle issue at name `a`. -/
theorem cycleAliases_chase (n : Nat) (hn : 1 ≤ n) (path : String)
    (issues : List PayloadIssue) :
    ∀ t j fuel, j + t = n → t + 1 ≤ fuel →
      raovGo [] (cycleAliases n) (aname 0) path fuel
          ((List.range j).reverse.map aname) (aname (j % n)) issues =
        some (none, issues ++ [{ path := path
                                 message := "Alias cycle detected at \x27" ++ aname 0 ++ "\x27" }]) := by
  intro t
  induction t with
  | zero =>
    intro j fuel hj hf
    obtain ⟨f, hfeq⟩ : ∃ f, fuel = f + 1 := ⟨fuel - 1, by omega⟩
    subst hfeq
    have hj_eq : j = n := by omega
    subst hj_eq
    rw [Nat.mod_self]
    apply raovGo_cycle
    rw [List.mem_map]
    exact ⟨0, List.mem_reverse.mpr (List.mem_range.mpr hn), rfl⟩
  | succ t ih =>
    intro j fuel hj hf
    have hjn : j < n := by omega
    obtain ⟨f, hfeq⟩ : ∃ f, fuel = f + 1 := ⟨fuel - 1, by omega⟩
    subst hfeq
    rw [Nat.mod_eq_of_lt hjn]
    rw [raovGo_step [] (cycleAliases n) (aname 0) path f
      ((List.range j).reverse.map aname) (aname j) (aname ((j + 1) % n)) issues
      (by
        intro hmem
        obtain ⟨i, hi, he⟩ := List.mem_map.mp hmem
        rw [List.mem_reverse, List.mem_range] at hi
        have := aname_inj i j he
        omega)
      rfl
      (by
        show (cycleAliases n).lookup (aname j) = some (aname ((j + 1) % n))
        unfold cycleAliases
        exact lookup_map_range aname (fun i => aname ((i + 1) % n)) aname_inj n j hjn)]
    have hvis : aname j :: (List.range j).reverse.map aname =
        (List.range (j + 1)).reverse.map aname := by
      rw [List.range_succ, List.reverse_append]
      simp
    rw [hvis]
    exact ih (j + 1) f (by omega) (by omega)

/-- Detection branch of `resolveRefSchema`: revisiting a version that is on
the in-progress stack yields exactly one cycle issue and substitutes the
version's own unmerged schema, without caching it. -/
theorem rrsGo_cycle_detect (selP : List (String × NormalizedTargetPayload))
    (versions : List (String × PayloadVersion))
    (resolvedAliases : List (String × String)) (basePath : String) (fuel : Nat)
    (versionKey : String) (stack : List String) (cache : List (String × Schema))
    (st : EngineSt)
    (hcache : cache.lookup versionKey = none) (hstack : versionKey ∈ stack) :
    rrsGo selP versions resolvedAliases basePath (fuel + 1) versionKey stack cache st =
      some (((versions.lookup versionKey).map PayloadVersion.schema).getD [], cache,
        { st with issues := st.issues ++
            [{ path := basePath ++ "." ++ versionKey ++ ".$ref"
               message := "Cycle detected in $ref: " ++ String.intercalate (" -> ") stack }] }) := by
  rw [rrsGo, hcache]
  rw [if_pos ((contains_true_iff _ _).mpr hstack)]

/-- Descent step of `resolveRefSchema` through a same-scope `$ref` that is a
raw version key different from the current version: the result is the
recursive resolution merged under the own schema, then cached. -/
theorem rrsGo_descend (selP : List (String × NormalizedTargetPayload))
    (versions : List (String × PayloadVersion))
    (resolvedAliases : List (String × String)) (basePath : String) (fuel : Nat)
    (versionKey : String) (stack : List String) (cache : List (String × Schema))
    (st : EngineSt) (version : PayloadVersion) (r : String)
    (hcache : cache.lookup versionKey = none)
    (hnst : ¬ versionKey ∈ stack)
    (hver : versions.lookup versionKey = some version)
    (href : version.ref = some (vstr r)) (hr : ¬ r = "")
    (hsep : findSep r.data = none)
    (hrv : (versions.lookup r).isSome = true)
    (hrneq : ¬ r = versionKey) :
    rrsGo selP versions resolvedAliases basePath (fuel + 1) versionKey stack cache st =
      ((rrsGo selP versions resolvedAliases basePath fuel r (stack ++ [versionKey]) cache st).map
          (fun q => (mergeSchemaMaps q.1 version.schema, q.2.1, q.2.2))).map
        (fun t => (t.1, objSet t.2.1 versionKey t.1, t.2.2)) := by
  rw [rrsGo, hcache]
  rw [if_neg (by rw [contains_false_of_not_mem hnst]; exact Bool.false_ne_true)]
  rw [hver]
  simp only [href]
  rw [if_neg hr]
  rw [if_neg (by rw [hsep]; exact Bool.false_ne_true)]
  rw [show sameScopeRefKey versions resolvedAliases r
      (basePath ++ "." ++ versionKey ++ ".$ref") st.issues = (some r, st.issues) from by
    unfold sameScopeRefKey
    rw [if_pos hrv]]
  dsimp only
  rw [if_pos (by simp [hr, hrneq])]

/-- Full descent of the canonical `$ref` cycle of length `n ≥ 2` started at
position `j`: it terminates with exactly one cycle issue and the chain of
merges whose base end is the unmerged own schema of version 0. -/
theorem cycleVersions_chase (n : Nat) (hn : 2 ≤ n) (basePath : String) :
    ∀ t j issues ec fuel, j + t = n → t + 1 ≤ fuel → 1 ≤ t →
      ∃ cache,
        rrsGo [] (cycleVersions n) [] basePath fuel (vname j)
            ((List.range j).map vname) [] { issues := issues, extCache := ec } =
          some (cycSchema n j, cache,
            { issues := issues ++ [cycleIssue n basePath], extCache := ec }) := by
  intro t
  induction t with
  | zero => intro j issues ec fuel hj hf ht; omega
  | succ t ih =>
    intro j issues ec fuel hj hf ht
    have hjn : j < n := by omega
    obtain ⟨f, hfeq⟩ : ∃ f, fuel = f + 1 := ⟨fuel - 1, by omega⟩
    subst hfeq
    have hver : (cycleVersions n).lookup (vname j) =
        some { ref := some (vstr (vname ((j + 1) % n))), schema := ownSchema j } := by
      unfold cycleVersions
      exact lookup_map_range vname
        (fun i => ({ ref := some (vstr (vname ((i + 1) % n))), schema := ownSchema i } : PayloadVersion))
        vname_inj n j hjn
    have hrv : ((cycleVersions n).lookup (vname ((j + 1) % n))).isSome = true := by
      unfold cycleVersions
      rw [lookup_map_range vname
        (fun i => ({ ref := some (vstr (vname ((i + 1) % n))), schema := ownSchema i } : PayloadVersion))
        vname_inj n ((j + 1) % n) (Nat.mod_lt _ (by omega))]
      rfl
    have hrneq : ¬ vname ((j + 1) % n) = vname j := by
      intro he
      have := vname_inj _ _ he
      by_cases hj1 : j + 1 < n
      · rw [Nat.mod_eq_of_lt hj1] at this; omega
      · have hj1n : j + 1 = n := by omega
        rw [hj1n, Nat.mod_self] at this
        omega
    rw [rrsGo_descend [] (cycleVersions n) [] basePath f (vname j)
      ((List.range j).map vname) [] { issues := issues, extCache := ec }
      { ref := some (vstr (vname ((j + 1) % n))), schema := ownSchema j }
      (vname ((j + 1) % n)) rfl
      (name_not_mem_map_range vname vname_inj j j (Nat.le_refl j))
      hver rfl (vname_ne_empty _) (findSep_vname _) hrv hrneq]
    have hstk : (List.range j).map vname ++ [vname j] = (List.range (j + 1)).map vname := by
      rw [List.range_succ, List.map_append]
      rfl
    rw [hstk]
    by_cases ht0 : t = 0
    · subst ht0
      have hj1n : j + 1 = n := by omega
      have hmod : (j + 1) % n = 0 := by rw [hj1n]; exact Nat.mod_self n
      rw [hmod, hj1n]
      obtain ⟨f2, hf2⟩ : ∃ f2, f = f2 + 1 := ⟨f - 1, by omega⟩
      subst hf2
      rw [rrsGo_cycle_detect [] (cycleVersions n) [] basePath f2 (vname 0)
        ((List.range n).map vname) [] { issues := issues, extCache := ec } rfl
        (List.mem_map.mpr ⟨0, List.mem_range.mpr (by omega), rfl⟩)]
      have hver0 : (cycleVersions n).lookup (vname 0) =
          some { ref := some (vstr (vname ((0 + 1) % n))), schema := ownSchema 0 } := by
        unfold cycleVersions
        exact lookup_map_range vname
          (fun i => ({ ref := some (vstr (vname ((i + 1) % n))), schema := ownSchema i } : PayloadVersion))
          vname_inj n 0 (by omega)
      rw [hver0]
      refine ⟨objSet [] (vname j) (mergeSchemaMaps (ownSchema 0) (ownSchema j)), ?_⟩
      conv_rhs => rw [cycSchema]
      rw [if_neg (show ¬ j + 1 < n by omega)]
      rfl
    · have hj1 : j + 1 < n := by omega
      rw [Nat.mod_eq_of_lt hj1]
      obtain ⟨c, hc⟩ := ih (j + 1) issues ec f (by omega) (by omega) (by omega)
      rw [hc]
      refine ⟨objSet c (vname j) (mergeSchemaMaps (cycSchema n (j + 1)) (ownSchema j)), ?_⟩
      conv_rhs => rw [cycSchema]
      rw [if_pos hj1]
      rfl

/-- C4: canonical alias cycles and `$ref` cycles of every length (1 and up
for aliases, 2 and up for `$ref`, covering the 2, 3 and 50 boundary cases)
terminate, produce exactly one cycle issue for the resolution, and substitute
the stated fallback: no key for an alias cycle, and — third conjunct, shown
for every input with the version on the in-progress stack — the version's own
unmerged schema at the point where a `$ref` cycle is detected.  (A `$ref`
cycle of length 1 is silently ignored instead; see claim C10.)  Termination
for all inputs, not only cycles, is `raovGo_isSome` through `rrsGo_isSome`
above. -/
theorem spec_C4 :
    (∀ n path issues, 1 ≤ n →
      resolveAliasOrVersion (aname 0) [] (cycleAliases n) issues path =
        (none, issues ++ [{ path := path
                            message := "Alias cycle detected at \x27" ++ aname 0 ++ "\x27" }])) ∧
    (∀ n basePath issues ec, 2 ≤ n →
      ∃ cache,
        resolveRefSchema [] (cycleVersions n) [] basePath (vname 0) [] []
            { issues := issues, extCache := ec } =
          (cycSchema n 0, cache,
           { issues := issues ++ [cycleIssue n basePath], extCache := ec })) ∧
    (∀ selP versions resolvedAliases basePath versionKey stack cache st,
      cache.lookup versionKey = none → versionKey ∈ stack →
      resolveRefSchema selP versions resolvedAliases basePath versionKey stack cache st =
        (((versions.lookup versionKey).map PayloadVersion.schema).getD [], cache,
         { st with issues := st.issues ++
             [{ path := basePath ++ "." ++ versionKey ++ ".$ref"
                message := "Cycle detected in $ref: " ++ String.intercalate (" -> ") stack }] })) := by
  refine ⟨?_, ?_, ?_⟩
  · intro n path issues hn
    have hlen : (cycleAliases n).length = n := by simp [cycleAliases]
    have hch := cycleAliases_chase n hn path issues n 0 (n + 1) (by omega) (by omega)
    rw [Nat.zero_mod] at hch
    have h0 : ((List.range 0).reverse.map aname) = ([] : List String) := rfl
    rw [h0] at hch
    unfold resolveAliasOrVersion
    rw [hlen, hch]
    rfl
  · intro n basePath issues ec hn
    have hlen : (cycleVersions n).length = n := by simp [cycleVersions]
    obtain ⟨c, hc⟩ := cycleVersions_chase n hn basePath n 0 issues ec (n + 1)
      (by omega) (by omega) (by omega)
    have h0 : ((List.range 0).map vname) = ([] : List String) := rfl
    rw [h0] at hc
    refine ⟨c, ?_⟩
    unfold resolveRefSchema
    rw [hlen, hc]
    rfl
  · intro selP versions resolvedAliases basePath versionKey stack cache st hcache hstack
    unfold resolveRefSchema
    rw [rrsGo_cycle_detect selP versions resolvedAliases basePath versions.length
      versionKey stack cache st hcache hstack]
    rfl

/-- Leaf case of `resolveRefSchema`: a version without `$ref` resolves to its
own schema, cached, with no issue. -/
theorem rrsGo_leaf (selP : List (String × NormalizedTargetPayload))
    (versions : List (String × PayloadVersion))
    (resolvedAliases : List (String × String)) (basePath : String) (fuel : Nat)
    (versionKey : String) (stack : List String) (cache : List (String × Schema))
    (st : EngineSt) (version : PayloadVersion)
    (hcache : cache.lookup versionKey = none)
    (hnst : ¬ versionKey ∈ stack)
    (hver : versions.lookup versionKey = some version)
    (href : version.ref = none) :
    rrsGo selP versions resolvedAliases basePath (fuel + 1) versionKey stack cache st =
      some (version.schema, objSet cache versionKey version.schema, st) := by
  rw [rrsGo, hcache]
  rw [if_neg (by rw [contains_false_of_not_mem hnst]; exact Bool.false_ne_true)]
  rw [hver]
  simp only [href]
  rfl

/-- C3 amended: one merge law for values, but diagnostics only at the
baseline boundary.  First conjunct: a same-scope `$ref` from version `vk` to
a `$ref`-free version `uk` makes the resolved schema exactly
`mergeSchemaMaps uk.schema vk.schema` — the very function used at the
baseline boundary — while the engine state (issues) is completely unchanged,
so no type-mismatch or required-weakening issue is ever emitted here.
Second conjunct: in the concrete `payloadC3`, the resolved schema of `v1`
equals the `mergeSchemaMaps` of the two conflicting layers, while (per the
counterexample) the identical layer pair fed to `validatePayload` as
baseline and event schema produces the type-conflict diagnostic. -/
theorem spec_C3 :
    (∀ selP versions resolvedAliases bp vk uk uv version cache st,
      cache.lookup vk = none → cache.lookup uk = none →
      versions.lookup vk = some version → version.ref = some (vstr uk) →
      ¬ uk = "" → findSep uk.data = none → versions.lookup uk = some uv →
      uv.ref = none → ¬ uk = vk →
      resolveRefSchema selP versions resolvedAliases bp vk [] cache st =
        (mergeSchemaMaps uv.schema version.schema,
         objSet (objSet cache uk uv.schema) vk (mergeSchemaMaps uv.schema version.schema),
         st)) ∧
    ((resolveEventPayload payloadC3 cfgWeb).1.targets.lookup ("web")).bind
        (fun t => (t.versions.lookup ("v1")).map ResolvedPayloadVersion.schema) =
      some (mergeSchemaMaps [("f", { type := some (vstr "string") })]
        [("f", { type := some (vstr "number") })]) := by
  refine ⟨?_, rfl⟩
  intro selP versions resolvedAliases bp vk uk uv version cache st
  intro hcvk hcuk hver href hne hsep huv huvref hukvk
  unfold resolveRefSchema
  rw [rrsGo_descend selP versions resolvedAliases bp versions.length vk [] cache st
    version uk hcvk (by simp) hver href hne hsep (by rw [huv]; rfl) hukvk]
  obtain ⟨m, hm⟩ : ∃ m, versions.length = m + 1 := by
    cases hv : versions with
    | nil => rw [hv] at hver; cases hver
    | cons p l => exact ⟨l.length, by simp⟩
  rw [hm]
  rw [rrsGo_leaf selP versions resolvedAliases bp m uk ([] ++ [vk]) cache st uv
    hcuk (by simp [hukvk]) huv huvref]
  rfl

/-- Lookup on a cons cell, phrased with a propositional if. -/
theorem lookup_cons_eqn {α : Type} (a k2 : String) (b : α) (l : List (String × α)) :
    List.lookup k2 ((a, b) :: l) = if k2 = a then some b else List.lookup k2 l := by
  rw [List.lookup]
  by_cases h : k2 = a
  · have hb : (k2 == a) = true := by simp [h]
    rw [hb, if_pos h]
  · have hb : (k2 == a) = false := by simp [h]
    rw [hb, if_neg h]

/-- Lookup after the in-place update half of `objSet`. -/
theorem lookup_map_update {α : Type} (l : List (String × α)) (k k2 : String) (v : α) :
    ((l.map (fun p => if p.1 = k then (p.1, v) else p)).lookup k2) =
      if k2 = k then (l.lookup k).map (fun _ => v) else l.lookup k2 := by
  induction l with
  | nil => cases hk : decide (k2 = k) <;> simp [List.lookup]
  | cons p l ih =>
    obtain ⟨k1, v1⟩ := p
    rw [List.map_cons]
    dsimp only
    by_cases h1 : k1 = k
    · rw [if_pos h1]
      rw [lookup_cons_eqn k1 k2 v, lookup_cons_eqn k1 k v1, lookup_cons_eqn k1 k2 v1]
      by_cases h2 : k2 = k1 <;> by_cases h3 : k2 = k <;>
        simp_all [ih]
    · rw [if_neg h1]
      rw [lookup_cons_eqn k1 k2 v1, lookup_cons_eqn k1 k v1, lookup_cons_eqn k1 k2 v1]
      by_cases h2 : k2 = k1 <;> by_cases h3 : k2 = k <;>
        simp_all [ih]

/-- Central lookup law of `objSet`: the assigned key maps to the new value,
every other key is untouched. -/
theorem lookup_objSet {α : Type} (l : List (String × α)) (k k2 : String) (v : α) :
    (objSet l k v).lookup k2 = if k2 = k then some v else l.lookup k2 := by
  unfold objSet
  by_cases hk : (l.lookup k).isSome = true
  · rw [if_pos hk, lookup_map_update]
    by_cases h2 : k2 = k
    · rw [if_pos h2, if_pos h2]
      obtain ⟨w, hw⟩ := Option.isSome_iff_exists.mp hk
      rw [hw]
      rfl
    · rw [if_neg h2, if_neg h2]
  · rw [if_neg hk]
    have hnone : l.lookup k = none := by
      cases hl : l.lookup k
      · rfl
      · rw [hl] at hk; exact absurd rfl hk
    cases hl2 : l.lookup k2 with
    | some w =>
      rw [lookup_append_some hl2]
      have h2 : ¬ k2 = k := by
        intro he
        rw [he, hnone] at hl2
        cases hl2
      rw [if_neg h2]
    | none =>
      rw [lookup_append_none hl2]
      by_cases h2 : k2 = k
      · subst h2
        rw [if_pos rfl]
        rw [List.lookup]
        simp
      · rw [if_neg h2]
        rw [List.lookup]
        have hb : (k2 == k) = false := by
          simp
          exact h2
        rw [hb]
        rfl

/-- A successful alias chase always lands on a version key. -/
theorem raovGo_some_isSome (versions : List (String × PayloadVersion))
    (aliases : List (String × String)) (name path : String) :
    ∀ fuel visited cur issues k issues2,
      raovGo versions aliases name path fuel visited cur issues = some (some k, issues2) →
      (versions.lookup k).isSome = true := by
  intro fuel
  induction fuel with
  | zero => intro _ _ _ _ _ h; cases h
  | succ fuel ih =>
    intro visited cur issues k issues2 h
    rw [raovGo] at h
    split at h
    · cases h
    · split at h
      next hv =>
        obtain ⟨h1, _⟩ := Prod.mk.injEq .. ▸ Option.some.injEq .. ▸ h
        exact (Option.some.injEq .. ▸ h1) ▸ hv
      · split at h
        · exact ih _ _ _ _ _ h
        · cases h

/-- Wrapper form of the chase soundness: a resolved key is a version key. -/
theorem resolveAliasOrVersion_some (name : String)
    (versions : List (String × PayloadVersion)) (aliases : List (String × String))
    (issues : List PayloadIssue) (path : String) (k : String)
    (issues2 : List PayloadIssue)
    (h : resolveAliasOrVersion name versions aliases issues path = (some k, issues2)) :
    (versions.lookup k).isSome = true := by
  unfold resolveAliasOrVersion at h
  cases hg : raovGo versions aliases name path (aliases.length + 1) [] name issues with
  | none =>
    rw [hg] at h
    simp at h
  | some r =>
    rw [hg] at h
    have : r = (some k, issues2) := h
    rw [this] at hg
    exact raovGo_some_isSome versions aliases name path _ _ _ _ _ _ hg

/-- Generic invariant preservation through a fold whose steps either keep the
keyed output map or assign one key to a value satisfying the invariant. -/
theorem foldl_lookup_inv {σ ι α : Type} (Q : α → Prop) (F : σ → ι → σ)
    (pr : σ → List (String × α))
    (hstep : ∀ s i, pr (F s i) = pr s ∨
      ∃ key v, pr (F s i) = objSet (pr s) key v ∧ Q v) :
    ∀ (l : List ι) (s : σ),
      (∀ k v, (pr s).lookup k = some v → Q v) →
      ∀ k v, ((pr (l.foldl F s)).lookup k = some v) → Q v := by
  intro l
  induction l with
  | nil => intro s hs k v h; exact hs k v h
  | cons x l ih =>
    intro s hs k v h
    rw [List.foldl_cons] at h
    refine ih (F s x) ?_ k v h
    intro k2 v2 h2
    cases hstep s x with
    | inl hsame => rw [hsame] at h2; exact hs _ _ h2
    | inr hex =>
      obtain ⟨key, w, heq, hq⟩ := hex
      rw [heq, lookup_objSet] at h2
      by_cases hk : k2 = key
      · rw [if_pos hk] at h2
        cases h2
        exact hq
      · rw [if_neg hk] at h2
        exact hs _ _ h2

/-- Every key of the version list ends up in the resolved-versions map built
by the per-target `$ref` fold. -/
theorem resolveVersionsFold_isSome (selP : List (String × NormalizedTargetPayload))
    (versions : List (String × PayloadVersion))
    (resolvedAliases : List (String × String)) (basePath : String) :
    ∀ (entries : List (String × PayloadVersion))
      (acc : List (String × ResolvedPayloadVersion) × List (String × Schema) × EngineSt)
      (k : String),
      (k ∈ entries.map Prod.fst ∨ (acc.1.lookup k).isSome = true) →
      (((resolveVersionsFold selP versions resolvedAliases basePath acc entries).1).lookup k).isSome = true := by
  intro entries
  induction entries with
  | nil =>
    intro acc k h
    cases h with
    | inl h => cases h
    | inr h => exact h
  | cons p l ih =>
    intro acc k h
    have hstep : resolveVersionsFold selP versions resolvedAliases basePath acc (p :: l) =
        resolveVersionsFold selP versions resolvedAliases basePath
          (let r := resolveRefSchema selP versions resolvedAliases basePath p.1 [] acc.2.1 acc.2.2
           (objSet acc.1 p.1 { key := p.1, ref := p.2.ref, meta := p.2.meta, schema := r.1 },
            r.2.1, r.2.2)) l := rfl
    rw [hstep]
    apply ih
    cases h with
    | inl hmem =>
      rw [List.map_cons] at hmem
      cases hmem with
      | head =>
        right
        rw [lookup_objSet, if_pos rfl]
        rfl
      | tail _ hmem2 => left; exact hmem2
    | inr hacc =>
      right
      rw [lookup_objSet]
      by_cases hk : k = p.1
      · rw [if_pos hk]; rfl
      · rw [if_neg hk]; exact hacc

/-- Each per-target step either leaves the resolved map unchanged (the target
is omitted) or assigns exactly this target to a record whose `current` key is
present in its resolved `versions` map. -/
theorem processTarget_cases (selectors : List SelectorInfo)
    (selPayloads : List (String × NormalizedTargetPayload))
    (acc : List (String × ResolvedTargetPayload) × EngineSt) (target : String) :
    (processTarget selectors selPayloads acc target).1 = acc.1 ∨
    ∃ rtp, (processTarget selectors selPayloads acc target).1 = objSet acc.1 target rtp ∧
      (rtp.versions.lookup rtp.current).isSome = true := by
  unfold processTarget
  by_cases he : (applicableFor selectors target).isEmpty = true
  · rw [if_pos he]
    left
    rfl
  · rw [if_neg he]
    dsimp only
    cases hck : (resolveCurrentFor (mergedFor selectors target) target
        (acc.2.issues ++ ambiguityIssues target (applicableFor selectors target))).2.1 with
    | none =>
      left
      rfl
    | some ck =>
      dsimp only
      by_cases hck0 : ck = ""
      · rw [if_pos hck0]
        left
        rfl
      · rw [if_neg hck0]
        right
        refine ⟨_, rfl, ?_⟩
        have hsome : resolveAliasOrVersion (mergedFor selectors target).currentRef
            (mergedFor selectors target).versions
            (spread2 (mergedFor selectors target).aliases
              (resolveAllAliases (mergedFor selectors target).versions
                (mergedFor selectors target).aliases
                (acc.2.issues ++ ambiguityIssues target (applicableFor selectors target))
                ("payload." ++ target ++ ".aliases")).1)
            (resolveAllAliases (mergedFor selectors target).versions
              (mergedFor selectors target).aliases
              (acc.2.issues ++ ambiguityIssues target (applicableFor selectors target))
              ("payload." ++ target ++ ".aliases")).2
            ("payload." ++ target ++ ".current") =
            (some ck, (resolveCurrentFor (mergedFor selectors target) target
              (acc.2.issues ++ ambiguityIssues target (applicableFor selectors target))).2.2) := by
          have h1 := hck
          unfold resolveCurrentFor at h1 ⊢
          exact Prod.ext h1 rfl
        have hvk := resolveAliasOrVersion_some _ _ _ _ _ _ _ hsome
        apply resolveVersionsFold_isSome
        left
        exact List.mem_map_of_mem Prod.fst (lookup_mem (Option.isSome_iff_exists.mp hvk).choose_spec)

/-- C7: (1) every target present in the resolved output has its `current`
key present in that target's resolved `versions` map; (2) when the merged
payload's `currentRef` does not resolve to a (truthy) version key, the
per-target step leaves the resolved map exactly as it was — the target is
omitted; (3) a per-target step never touches any other target's entry, so a
fatal `current` affects that target only while the rest of the run proceeds;
(4) every alias entry that survives into the output alias map names a
resolvable version key — unresolved aliases are omitted rather than aborting
the target. -/
theorem spec_C7 :
    (∀ payload cfg t rtp,
      (resolveEventPayload payload cfg).1.targets.lookup t = some rtp →
      (rtp.versions.lookup rtp.current).isSome = true) ∧
    (∀ selectors selPayloads acc target,
      ((resolveCurrentFor (mergedFor selectors target) target
          (acc.2.issues ++ ambiguityIssues target (applicableFor selectors target))).2.1 = none ∨
        (resolveCurrentFor (mergedFor selectors target) target
          (acc.2.issues ++ ambiguityIssues target (applicableFor selectors target))).2.1 = some "") →
      (processTarget selectors selPayloads acc target).1 = acc.1) ∧
    (∀ selectors selPayloads acc target t2, ¬ t2 = target →
      (processTarget selectors selPayloads acc target).1.lookup t2 = acc.1.lookup t2) ∧
    (∀ versions aliases issues basePath al k,
      (resolveAllAliases versions aliases issues basePath).1.lookup al = some k →
      (versions.lookup k).isSome = true) := by
  refine ⟨?_, ?_, ?_, ?_⟩
  · intro payload cfg t rtp h
    unfold resolveEventPayload at h
    dsimp only at h
    refine foldl_lookup_inv
      (fun rtp : ResolvedTargetPayload => (rtp.versions.lookup rtp.current).isSome = true)
      (processTarget _ _) Prod.fst ?_ _ _
      (fun k v hkv => by simp [List.lookup] at hkv) t rtp h
    intro s i
    refine (processTarget_cases _ _ s i).imp (fun h1 => h1) ?_
    intro h2
    obtain ⟨rtp2, h1, hq⟩ := h2
    exact ⟨i, rtp2, h1, hq⟩
  · intro selectors selPayloads acc target h
    unfold processTarget
    by_cases he : (applicableFor selectors target).isEmpty = true
    · rw [if_pos he]
    · rw [if_neg he]
      dsimp only
      cases h with
      | inl hn => rw [hn]
      | inr hs =>
        rw [hs]
        dsimp only
        rw [if_pos rfl]
  · intro selectors selPayloads acc target t2 ht
    cases processTarget_cases selectors selPayloads acc target with
    | inl hsame => rw [hsame]
    | inr hex =>
      obtain ⟨rtp, heq, _⟩ := hex
      rw [heq, lookup_objSet, if_neg ht]
  · intro versions aliases issues basePath al k h
    unfold resolveAllAliases at h
    refine foldl_lookup_inv (fun k => (versions.lookup k).isSome = true) _ Prod.fst ?_
      aliases ([], issues) (fun k2 v hkv => by simp [List.lookup] at hkv) al k h
    intro s i
    dsimp only
    rcases hr : resolveAliasOrVersion i.2 versions aliases s.2 (basePath ++ "." ++ i.1)
      with ⟨key, iss⟩
    cases key with
    | none => left; rfl
    | some k2 =>
      dsimp only
      by_cases hk2 : k2 = ""
      · rw [if_pos hk2]
        left
        rfl
      · rw [if_neg hk2]
        right
        exact ⟨i.1, k2, rfl,
          resolveAliasOrVersion_some i.2 versions aliases s.2 (basePath ++ "." ++ i.1) k2 iss hr⟩

/-- The unvisited-key count never exceeds the key count: every wrapper fuel
bound `keys.length + 1` is therefore adequate from any starting state. -/
theorem countNew_le (keys visited : List String) :
    countNew keys visited ≤ keys.length :=
  List.length_filter_le _ _

/-- With no selectors, the per-target step is the identity on the
accumulator. -/
theorem processTarget_nil (selPayloads : List (String × NormalizedTargetPayload))
    (acc : List (String × ResolvedTargetPayload) × EngineSt) (target : String) :
    processTarget [] selPayloads acc target = acc := rfl

/-- With no selectors, the whole target loop is the identity. -/
theorem foldl_processTarget_nil (selPayloads : List (String × NormalizedTargetPayload)) :
    ∀ (l : List String) (acc : List (String × ResolvedTargetPayload) × EngineSt),
      l.foldl (processTarget [] selPayloads) acc = acc := by
  intro l
  induction l with
  | nil => intro acc; rfl
  | cons x l ih =>
    intro acc
    rw [List.foldl_cons, processTarget_nil]
    exact ih acc

/-- A raw payload that is not a plain object yields an empty selector map and
exactly one `Invalid payload` issue. -/
theorem buildSelectorMap_nonobj (payload : Value) (issues : List PayloadIssue)
    (h : isPlainObject payload = false) :
    buildSelectorMap payload issues =
      ([], issues ++ [{ path := "payload", message := "Invalid payload: expected object" }]) := by
  cases payload with
  | vobj es => simp [isPlainObject] at h
  | vnull => rfl
  | vbool b => rfl
  | vnum n => rfl
  | vstr s => rfl
  | varr l => rfl

/-- An empty selector map parses to no selectors, no selector payloads and
unchanged issues. -/
theorem parseSelectors_nil (targetsConfig : List (String × List String))
    (allTargets : List String) (issues : List PayloadIssue) :
    parseSelectors targetsConfig allTargets [] issues = ([], [], issues) := rfl

/-- C8: the engine never fails hard and degrades malformed units one at a
time.  (1)-(4) the four chase loops terminate within the fuel their wrappers
supply, from any starting state, so no resolution can loop forever or blow
the stack; (5) an invalid target payload degrades to the empty normalized
payload plus one accumulated issue; (6) an invalid version entry is dropped
(version and alias maps untouched) with one accumulated issue, and the fold
continues with the remaining entries; (7) a non-object raw payload (array,
string, number, boolean, null) still returns normally: no targets and an
`Invalid payload: expected object` issue. -/
theorem spec_C8 :
    (∀ versions aliases name path visited cur issues,
      (raovGo versions aliases name path (aliases.length + 1) visited cur issues).isSome = true) ∧
    (∀ selPayloads fromPath visited cur issues,
      (rsaovGo selPayloads fromPath ((allAliasIds selPayloads).length + 1) visited cur
        issues).isSome = true) ∧
    (∀ selPayloads selector versionKey stack st,
      (rssGo selPayloads ((allVersionIds selPayloads).length + 1) selector versionKey stack
        st).isSome = true) ∧
    (∀ selPayloads versions resolvedAliases basePath versionKey stack cache st,
      (rrsGo selPayloads versions resolvedAliases basePath (versions.length + 1) versionKey
        stack cache st).isSome = true) ∧
    (∀ payload issues path, isPayloadVersion payload = false →
      isVersionedTargetPayload payload = false →
      parseTargetPayload payload issues path =
        (emptyNormalizedPayload,
         issues ++ [{ path := path
                      message := "Invalid target payload: expected \x7bschema,...\x7d or \x7bcurrent,...\x7d" }])) ∧
    (∀ path acc k v, ¬ k = "current" → (∀ s, ¬ v = vstr s) →
      isPayloadVersion v = false →
      parseVersionEntry path acc (k, v) =
        (acc.1, acc.2.1,
         acc.2.2 ++ [{ path := path ++ "." ++ k
                       message := "Invalid version entry: expected string alias or \x7bschema,...\x7d" }])) ∧
    (∀ payload cfg, isPlainObject payload = false →
      (resolveEventPayload payload cfg).1.targets = [] ∧
      { path := "payload", message := "Invalid payload: expected object" }
        ∈ (resolveEventPayload payload cfg).2) := by
  refine ⟨?_, ?_, ?_, ?_, ?_, ?_, ?_⟩
  · intro versions aliases name path visited cur issues
    refine raovGo_isSome versions aliases name path _ visited cur issues ?_
    have h1 := countNew_le (aliases.map Prod.fst) visited
    rw [List.length_map] at h1
    omega
  · intro selPayloads fromPath visited cur issues
    exact rsaovGo_isSome selPayloads fromPath _ visited cur issues
      (Nat.lt_succ_of_le (countNew_le _ _))
  · intro selPayloads selector versionKey stack st
    exact rssGo_isSome selPayloads _ selector versionKey stack st
      (Nat.lt_succ_of_le (countNew_le _ _))
  · intro selPayloads versions resolvedAliases basePath versionKey stack cache st
    refine rrsGo_isSome selPayloads versions resolvedAliases basePath _ versionKey stack cache st ?_
    have h1 := countNew_le (versions.map Prod.fst) stack
    rw [List.length_map] at h1
    omega
  · intro payload issues path h1 h2
    unfold parseTargetPayload
    rw [h1, h2]
    rfl
  · intro path acc k v hk hs hpv
    cases v with
    | vstr s => exact absurd rfl (hs s)
    | vnull =>
      unfold parseVersionEntry
      dsimp only
      rw [if_neg hk, hpv]
      rfl
    | vbool b =>
      unfold parseVersionEntry
      dsimp only
      rw [if_neg hk, hpv]
      rfl
    | vnum n =>
      unfold parseVersionEntry
      dsimp only
      rw [if_neg hk, hpv]
      rfl
    | varr l =>
      unfold parseVersionEntry
      dsimp only
      rw [if_neg hk, hpv]
      rfl
    | vobj es =>
      unfold parseVersionEntry
      dsimp only
      rw [if_neg hk, hpv]
      rfl
  · intro payload cfg hpo
    have key : resolveEventPayload payload cfg =
        ({ targets := [] },
         (if ((cfg.lookup ("all")).getD []).isEmpty then
            [{ path := "spec.events.payload.targets.all"
               message := "Missing or empty targets.all" }]
          else []) ++
           [{ path := "payload", message := "Invalid payload: expected object" }]) := by
      unfold resolveEventPayload
      dsimp only
      rw [buildSelectorMap_nonobj payload _ hpo]
      dsimp only
      rw [hpo]
      rw [Bool.false_and, if_neg Bool.false_ne_true]
      rw [parseSelectors_nil]
      dsimp only
      rw [foldl_processTarget_nil]
    rw [key]
    exact ⟨rfl, by simp⟩

end OpenTP
